import Mathlib

/-!
Verification of the animation/timeline and particle-simulation core of the
`twinnn` greeting-card application.

The TypeScript source is shallowly embedded over `ℚ`:
pure numeric helpers become Lean functions, each `useFrame` callback becomes an
explicit state-transition function, and host facilities that are external to
the core (the `Math.random` generator, transcendental host functions such as
`Math.exp`/`Math.sin`, and the wall clock) are injected as parameters, so that
every theorem quantifies over all of their possible behaviours.  The exact
real-valued trigonometric formula of the firework burst velocity is modelled
separately over `ℝ`.
-/

namespace Twinnn

/-! ### Numeric helpers (`src/src/App.tsx` lines 25-30) -/

/-- `clamp(value, min, max) = Math.min(max, Math.max(min, value))`. -/
def qclamp (value lo hi : ℚ) : ℚ := min hi (max lo value)

/-- `lerp(from, to, t) = from + (to - from) * t`. -/
def lerp (a b t : ℚ) : ℚ := a + (b - a) * t

/-- `easeOutCubic(t) = 1 - (1 - t)^3`. -/
def easeOutCubic (t : ℚ) : ℚ := 1 - (1 - t)^3

/-! ### Scene timeline constants (`src/src/App.tsx` lines 47-83) -/

def CAKE_START_Y : ℚ := 10
def CAKE_END_Y : ℚ := 0
def CAKE_DESCENT_DURATION : ℚ := 3
def TABLE_START_Z : ℚ := 30
def TABLE_END_Z : ℚ := 0
def TABLE_SLIDE_DURATION : ℚ := 7/10
def TABLE_SLIDE_START : ℚ := CAKE_DESCENT_DURATION - TABLE_SLIDE_DURATION - 1/10
def CANDLE_START_Y : ℚ := 5
def CANDLE_END_Y : ℚ := 0
def CANDLE_DROP_DURATION : ℚ := 6/5
def CANDLE_DROP_START : ℚ :=
  max CAKE_DESCENT_DURATION (TABLE_SLIDE_START + TABLE_SLIDE_DURATION) + 1
def totalAnimationTime : ℚ := CANDLE_DROP_START + CANDLE_DROP_DURATION
def BACKGROUND_FADE_DURATION : ℚ := 1
def BACKGROUND_FADE_OFFSET : ℚ := 0
def BACKGROUND_FADE_END : ℚ :=
  max (CANDLE_DROP_START - BACKGROUND_FADE_OFFSET) BACKGROUND_FADE_DURATION
def BACKGROUND_FADE_START : ℚ :=
  max (BACKGROUND_FADE_END - BACKGROUND_FADE_DURATION) 0

/-! ### Timeline controller state (`AnimatedScene`, `src/src/App.tsx` 179-323)

The mutable refs of the component become record fields.  The two throttled
emitters keep the last pushed value in a ref; the observer-visible signal is
exactly that ref's content (the initial effect at lines 189-192 pushes the
initial ref values to the observers, and afterwards observer and ref change
together). The cake rotation is stored as the coefficient of `π`
(`cake.rotation.y = cakeEase * π * 2` stores `cakeEase * 2`); the irrational
factor plays no role in any claim.  The completion callback
`onAnimationComplete` is modelled by the counter `notifyCount`. -/

@[ext]
structure TLState where
  primed : Bool
  startRef : Option ℚ
  hasCompleted : Bool
  completionNotified : Bool
  bgRef : ℚ
  envRef : ℚ
  notifyCount : ℕ
  cakePos : ℚ × ℚ × ℚ
  cakeRotYPi : ℚ
  tablePos : ℚ × ℚ × ℚ
  candlePos : ℚ × ℚ × ℚ
  candleVisible : Bool
deriving DecidableEq

/-- Initial component state: refs `hasPrimed=false`, `animationStart=null`,
`hasCompleted=false`, `completionNotified=false`, `backgroundOpacity=1`,
`environmentProgress=0` (lines 182-187).  Group transforms before priming are
the mount defaults (origin). -/
def initTL : TLState :=
  { primed := false
    startRef := none
    hasCompleted := false
    completionNotified := false
    bgRef := 1
    envRef := 0
    notifyCount := 0
    cakePos := (0, 0, 0)
    cakeRotYPi := 0
    tablePos := (0, 0, 0)
    candlePos := (0, 0, 0)
    candleVisible := false }

/-- `emitBackgroundOpacity` / `emitEnvironmentProgress` (lines 194-208): clamp
to `[0,1]`, store and push only when the change exceeds `0.005`; returns the
new ref content. -/
def emitVal (cur value : ℚ) : ℚ :=
  let clamped := qclamp value 0 1
  if |clamped - cur| > 5/1000 then clamped else cur

/-- Priming (lines 219-227): snap all three objects to their start pose once. -/
def tlPrime (s : TLState) : TLState :=
  if s.primed then s else
    { s with cakePos := (0, CAKE_START_Y, 0), cakeRotYPi := 0
             tablePos := (0, 0, TABLE_START_Z)
             candlePos := (0, CANDLE_START_Y, 0), candleVisible := false
             primed := true }

/-- `isPlaying = false` branch (lines 229-236): emit `(1,0)`, clear the start
reference and the completion flags. -/
def tlNotPlaying (s : TLState) : TLState :=
  { s with bgRef := emitVal s.bgRef 1, envRef := emitVal s.envRef 0
           startRef := none, hasCompleted := false, completionNotified := false }

/-- `hasCompleted` branch (lines 238-246): keep emitting `(0,1)` and fire the
completion callback unless it was already notified. -/
def tlCompleted (s : TLState) : TLState :=
  let s := { s with bgRef := emitVal s.bgRef 0, envRef := emitVal s.envRef 1 }
  if !s.completionNotified then
    { s with completionNotified := true, notifyCount := s.notifyCount + 1 }
  else s

/-- Per-frame pose computation (lines 255-291), as a function of the clamped
elapsed time `ce`. -/
def tlPoses (s : TLState) (ce : ℚ) : TLState :=
  -- cake pose (lines 255-262)
  let cakeEase := easeOutCubic (qclamp (ce / CAKE_DESCENT_DURATION) 0 1)
  let s := { s with cakePos := (0, lerp CAKE_START_Y CAKE_END_Y cakeEase, 0)
                    cakeRotYPi := cakeEase * 2 }
  -- table pose (lines 264-275)
  let tableZ :=
    if ce ≥ TABLE_SLIDE_START then
      lerp TABLE_START_Z TABLE_END_Z
        (easeOutCubic (qclamp ((ce - TABLE_SLIDE_START) / TABLE_SLIDE_DURATION) 0 1))
    else TABLE_START_Z
  let s := { s with tablePos := (0, 0, tableZ) }
  -- candle pose (lines 277-291)
  if ce ≥ CANDLE_DROP_START then
    let candleEase := easeOutCubic (qclamp ((ce - CANDLE_DROP_START) / CANDLE_DROP_DURATION) 0 1)
    { s with candleVisible := true
             candlePos := (0, lerp CANDLE_START_Y CANDLE_END_Y candleEase, 0) }
  else
    { s with candleVisible := false, candlePos := (0, CANDLE_START_Y, 0) }

/-- The background opacity value pushed to the throttled emitter at clamped
elapsed time `ce` (lines 293-306). -/
def bgTargetCe (ce : ℚ) : ℚ :=
  if ce < BACKGROUND_FADE_START then 1
  else 1 - easeOutCubic (qclamp ((ce - BACKGROUND_FADE_START) / BACKGROUND_FADE_DURATION) 0 1)

/-- Background fade emission (lines 293-306). -/
def tlFadeEmit (s : TLState) (ce : ℚ) : TLState :=
  let backgroundOpacity := bgTargetCe ce
  { s with bgRef := emitVal s.bgRef backgroundOpacity
           envRef := emitVal s.envRef (1 - backgroundOpacity) }

/-- Completion block (lines 308-322): snap to final pose, emit `(0,1)`, latch
`hasCompleted`, fire the completion callback at most once. -/
def tlDone (s : TLState) : TLState :=
  let s := { s with cakePos := (0, CAKE_END_Y, 0), cakeRotYPi := 0
                    tablePos := (0, 0, TABLE_END_Z)
                    candlePos := (0, CANDLE_END_Y, 0), candleVisible := true
                    bgRef := emitVal s.bgRef 0, envRef := emitVal s.envRef 1
                    hasCompleted := true }
  if !s.completionNotified then
    { s with completionNotified := true, notifyCount := s.notifyCount + 1 }
  else s

/-- Playing, not-yet-completed branch (lines 248-322). -/
def tlPlay (s : TLState) (clockTime : ℚ) : TLState :=
  let start := s.startRef.getD clockTime
  let s := { s with startRef := some start }
  let ce := qclamp (clockTime - start) 0 totalAnimationTime
  let s := tlPoses s ce
  let s := tlFadeEmit s ce
  if ce ≥ totalAnimationTime then tlDone s else s

/-- One execution of the `useFrame` body of `AnimatedScene`
(`src/src/App.tsx` lines 210-323) with all three object refs mounted.
`clockTime` is `clock.elapsedTime`. -/
def tlTick (s : TLState) (isPlaying : Bool) (clockTime : ℚ) : TLState :=
  let s := tlPrime s
  if !isPlaying then tlNotPlaying s
  else if s.hasCompleted then tlCompleted s
  else tlPlay s clockTime

/-- A state from which a fresh play session starts: the state left behind by
any `isPlaying = false` tick (start reference and completion flags cleared). -/
def sessionReady (s : TLState) : Prop :=
  s.startRef = none ∧ s.hasCompleted = false ∧ s.completionNotified = false

/-- A maximal run of `isPlaying = true` ticks at the given clock readings. -/
def playFold (s0 : TLState) (ts : List ℚ) : TLState :=
  ts.foldl (fun s t => tlTick s true t) s0

/-- Timeline states reachable from the mount state by any tick sequence with a
monotone clock; the time component records the clock reading of the last tick
(an arbitrary lower bound for future ticks when no tick has happened yet). -/
inductive TLReach : TLState → ℚ → Prop where
  | base (t : ℚ) : TLReach initTL t
  | step {s : TLState} {t : ℚ} (h : TLReach s t) (p : Bool) {t' : ℚ} (hle : t ≤ t') :
      TLReach (tlTick s p t') t'

/-! ### Basic lemmas about the helpers -/

lemma qclamp_of_mem {v lo hi : ℚ} (h0 : lo ≤ v) (h1 : v ≤ hi) : qclamp v lo hi = v := by
  simp [qclamp, max_eq_right h0, min_eq_right h1]

lemma qclamp_mem {v lo hi : ℚ} (h : lo ≤ hi) : lo ≤ qclamp v lo hi ∧ qclamp v lo hi ≤ hi := by
  constructor
  · exact le_min h (le_max_left _ _)
  · exact min_le_left _ _

lemma qclamp_mono {v w lo hi : ℚ} (h : v ≤ w) : qclamp v lo hi ≤ qclamp w lo hi := by
  exact min_le_min le_rfl (max_le_max le_rfl h)

lemma easeOutCubic_mono {v w : ℚ} (h : v ≤ w) : easeOutCubic v ≤ easeOutCubic w := by
  have h3 : (1 - w) ^ 3 ≤ (1 - v) ^ 3 := by nlinarith [sq_nonneg (1 - v), sq_nonneg (1 - w), sq_nonneg ((1 - v) + (1 - w))]
  simp only [easeOutCubic]
  linarith

lemma easeOutCubic_mem {v : ℚ} (h0 : 0 ≤ v) (h1 : v ≤ 1) :
    0 ≤ easeOutCubic v ∧ easeOutCubic v ≤ 1 := by
  constructor
  · have := easeOutCubic_mono h0
    simpa [easeOutCubic] using this
  · have := easeOutCubic_mono h1
    simpa [easeOutCubic] using this

/-! ### Lemmas about the throttled emitter -/

lemma emitVal_bounds {cur : ℚ} (v : ℚ) (h0 : 0 ≤ cur) (h1 : cur ≤ 1) :
    0 ≤ emitVal cur v ∧ emitVal cur v ≤ 1 := by
  have hm := @qclamp_mem v (0:ℚ) 1 (by norm_num)
  simp only [emitVal]
  split <;> exact ⟨by linarith [hm.1], by linarith [hm.2]⟩

/-- Pushing `1` when the stored value is `1` or farther than the throttle
below `1` lands exactly on `1`. -/
lemma emitVal_one {cur : ℚ} (h : cur = 1 ∨ cur < 199/200) : emitVal cur 1 = 1 := by
  have hq : qclamp (1:ℚ) 0 1 = 1 := qclamp_of_mem (by norm_num) (by norm_num)
  simp only [emitVal, hq]
  rcases h with h | h
  · simp [h]
  · rw [if_pos]
    rw [show |1 - cur| = 1 - cur from abs_of_pos (by linarith)]
    linarith

/-- Pushing `0` when the stored value is `0` or farther than the throttle
above `0` lands exactly on `0`. -/
lemma emitVal_zero {cur : ℚ} (h0 : 0 ≤ cur) (h : cur = 0 ∨ 1/200 < cur) : emitVal cur 0 = 0 := by
  have hq : qclamp (0:ℚ) 0 1 = 0 := qclamp_of_mem (by norm_num) (by norm_num)
  simp only [emitVal, hq]
  rcases h with h | h
  · simp [h]
  · rw [if_pos]
    rw [show |(0:ℚ) - cur| = cur by rw [abs_sub_comm, sub_zero, abs_of_nonneg h0]]
    linarith

/-- An emission either updates the stored value to the (in-range) pushed value
or keeps it, in which case the two are within the throttle `0.005`. -/
lemma emitVal_eq_or {cur v : ℚ} (hv0 : 0 ≤ v) (hv1 : v ≤ 1) :
    emitVal cur v = v ∨ (emitVal cur v = cur ∧ |v - cur| ≤ 5/1000) := by
  have hq : qclamp v 0 1 = v := qclamp_of_mem hv0 hv1
  simp only [emitVal, hq]
  split
  · exact Or.inl rfl
  · exact Or.inr ⟨rfl, by linarith [not_lt.mp (by simpa using ‹¬ |v - cur| > 5/1000›)]⟩

lemma emitVal_le {cur v : ℚ} (hv0 : 0 ≤ v) (hvc : v ≤ cur) : emitVal cur v ≤ cur := by
  have hq : 0 ≤ qclamp v 0 1 ∧ qclamp v 0 1 ≤ 1 := qclamp_mem (by norm_num)
  have hle : qclamp v 0 1 ≤ max cur 1 := le_trans hq.2 (le_max_right _ _)
  simp only [emitVal]
  split
  · calc qclamp v 0 1 = min 1 (max 0 v) := rfl
    _ ≤ max 0 v := min_le_right _ _
    _ = v := max_eq_right hv0
    _ ≤ cur := hvc
  · exact le_rfl

lemma emitVal_ge {cur v : ℚ} (hv1 : v ≤ 1) (hvc : cur ≤ v) (h0 : 0 ≤ cur) : cur ≤ emitVal cur v := by
  have hv0 : qclamp v 0 1 = max 0 v := by simp [qclamp, min_eq_right, max_le_iff, hv1, le_trans h0 hvc]
  simp only [emitVal]
  split
  · rw [hv0]
    exact le_trans hvc (le_max_right _ _)
  · exact le_rfl

lemma emitVal_zero_le {cur : ℚ} (h0 : 0 ≤ cur) : emitVal cur 0 ≤ 1/200 := by
  have hq : qclamp (0:ℚ) 0 1 = 0 := qclamp_of_mem (by norm_num) (by norm_num)
  simp only [emitVal, hq]
  split
  · norm_num
  · rename_i hno
    rw [not_lt, show |(0:ℚ) - cur| = cur by rw [abs_sub_comm, sub_zero, abs_of_nonneg h0]] at hno
    linarith

lemma emitVal_one_ge {cur : ℚ} (h1 : cur ≤ 1) : 199/200 ≤ emitVal cur 1 := by
  have hq : qclamp (1:ℚ) 0 1 = 1 := qclamp_of_mem (by norm_num) (by norm_num)
  simp only [emitVal, hq]
  split
  · norm_num
  · rename_i hno
    rw [not_lt, show |(1:ℚ) - cur| = 1 - cur from abs_of_nonneg (by linarith)] at hno
    linarith

/-! ### Bookkeeping lemmas for the timeline tick -/

lemma totalAnimationTime_eq : totalAnimationTime = 26/5 := by
  norm_num [totalAnimationTime, CANDLE_DROP_START, CAKE_DESCENT_DURATION, TABLE_SLIDE_START,
    TABLE_SLIDE_DURATION, CANDLE_DROP_DURATION]

lemma fadeStart_eq : BACKGROUND_FADE_START = 3 := by
  norm_num [BACKGROUND_FADE_START, BACKGROUND_FADE_END, BACKGROUND_FADE_DURATION,
    BACKGROUND_FADE_OFFSET, CANDLE_DROP_START, CAKE_DESCENT_DURATION, TABLE_SLIDE_START,
    TABLE_SLIDE_DURATION]

lemma candleDropStart_eq : CANDLE_DROP_START = 4 := by
  norm_num [CANDLE_DROP_START, CAKE_DESCENT_DURATION, TABLE_SLIDE_START, TABLE_SLIDE_DURATION]

lemma tlPrime_fields (s : TLState) :
    (tlPrime s).startRef = s.startRef ∧ (tlPrime s).hasCompleted = s.hasCompleted ∧
    (tlPrime s).completionNotified = s.completionNotified ∧
    (tlPrime s).notifyCount = s.notifyCount ∧ (tlPrime s).bgRef = s.bgRef ∧
    (tlPrime s).envRef = s.envRef ∧ (tlPrime s).primed = true := by
  simp only [tlPrime]; split <;> simp_all

lemma tlTick_false_eq (s : TLState) (t : ℚ) : tlTick s false t = tlNotPlaying (tlPrime s) := by
  simp [tlTick]

lemma tlTick_true_eq (s : TLState) (t : ℚ) :
    tlTick s true t =
      if (tlPrime s).hasCompleted then tlCompleted (tlPrime s) else tlPlay (tlPrime s) t := by
  simp only [tlTick, Bool.not_true, Bool.false_eq_true, if_false]

lemma tlPoses_fields (s : TLState) (ce : ℚ) :
    (tlPoses s ce).startRef = s.startRef ∧ (tlPoses s ce).hasCompleted = s.hasCompleted ∧
    (tlPoses s ce).completionNotified = s.completionNotified ∧
    (tlPoses s ce).notifyCount = s.notifyCount ∧ (tlPoses s ce).bgRef = s.bgRef ∧
    (tlPoses s ce).envRef = s.envRef := by
  simp only [tlPoses]; split <;> simp

lemma tlFadeEmit_fields (s : TLState) (ce : ℚ) :
    (tlFadeEmit s ce).startRef = s.startRef ∧ (tlFadeEmit s ce).hasCompleted = s.hasCompleted ∧
    (tlFadeEmit s ce).completionNotified = s.completionNotified ∧
    (tlFadeEmit s ce).notifyCount = s.notifyCount ∧
    (tlFadeEmit s ce).bgRef = emitVal s.bgRef (bgTargetCe ce) ∧
    (tlFadeEmit s ce).envRef = emitVal s.envRef (1 - bgTargetCe ce) := by
  simp [tlFadeEmit]

lemma tlDone_fields (s : TLState) :
    (tlDone s).startRef = s.startRef ∧ (tlDone s).hasCompleted = true ∧
    (tlDone s).completionNotified = true ∧
    (tlDone s).notifyCount = s.notifyCount + (if s.completionNotified = false then 1 else 0) ∧
    (tlDone s).bgRef = emitVal s.bgRef 0 ∧ (tlDone s).envRef = emitVal s.envRef 1 := by
  simp only [tlDone]
  split <;> rename_i hn <;> simp_all

/-- The clamped elapsed time reaches the total exactly when the raw elapsed
time does. -/
lemma qclamp_total_ge_iff {e : ℚ} :
    totalAnimationTime ≤ qclamp e 0 totalAnimationTime ↔ totalAnimationTime ≤ e := by
  rw [totalAnimationTime_eq]
  simp only [qclamp, le_min_iff, le_max_iff]
  constructor
  · rintro ⟨-, h | h⟩
    · norm_num at h
    · exact h
  · intro h
    exact ⟨le_rfl, Or.inr h⟩

/-- Flag and counter bookkeeping of a playing tick from a not-yet-completed
state: the completion latch flips exactly when the elapsed time (relative to
the start reference, set at this tick if absent) reaches the total, and the
callback counter increments exactly then. -/
lemma tlTick_true_notCompleted (s : TLState) (t : ℚ)
    (h : s.hasCompleted = false) (hn : s.completionNotified = false) :
    (tlTick s true t).startRef = some (s.startRef.getD t) ∧
    ((tlTick s true t).hasCompleted = decide (totalAnimationTime ≤ t - s.startRef.getD t)) ∧
    (tlTick s true t).completionNotified = (tlTick s true t).hasCompleted ∧
    (tlTick s true t).notifyCount =
      s.notifyCount + (if totalAnimationTime ≤ t - s.startRef.getD t then 1 else 0) := by
  have hp := tlPrime_fields s
  rw [tlTick_true_eq, if_neg (by rw [hp.2.1, h]; simp)]
  set s1 := tlPrime s with hs1
  have hstart : s1.startRef.getD t = s.startRef.getD t := by rw [hp.1]
  simp only [tlPlay]
  set s2 : TLState := { s1 with startRef := some (s1.startRef.getD t) } with hs2
  set ce := qclamp (t - s1.startRef.getD t) 0 totalAnimationTime with hce
  have hpose := tlPoses_fields s2 ce
  have hfade := tlFadeEmit_fields (tlPoses s2 ce) ce
  set s3 := tlFadeEmit (tlPoses s2 ce) ce with hs3
  have h3s : s3.startRef = some (s1.startRef.getD t) := by
    rw [hfade.1, hpose.1]
  have h3c : s3.hasCompleted = false := by
    rw [hfade.2.1, hpose.2.1]; simpa [hs2] using hp.2.1.trans h
  have h3n : s3.completionNotified = false := by
    rw [hfade.2.2.1, hpose.2.2.1]; simpa [hs2] using hp.2.2.1.trans hn
  have h3k : s3.notifyCount = s.notifyCount := by
    rw [hfade.2.2.2.1, hpose.2.2.2.1]; simpa [hs2] using hp.2.2.2.1
  have hdone := tlDone_fields s3
  split
  · rename_i hge
    have hge' : totalAnimationTime ≤ t - s.startRef.getD t := by
      rw [← hstart]; exact qclamp_total_ge_iff.mp hge
    refine ⟨by rw [hdone.1, h3s, hstart], ?_, ?_, ?_⟩
    · rw [hdone.2.1]; simp [hge']
    · rw [hdone.2.2.1, hdone.2.1]
    · rw [hdone.2.2.2.1, h3k, h3n]; simp [hge']
  · rename_i hlt
    have hlt' : ¬ totalAnimationTime ≤ t - s.startRef.getD t := by
      rw [← hstart]; exact fun hcon => hlt (qclamp_total_ge_iff.mpr hcon)
    refine ⟨by rw [h3s, hstart], ?_, ?_, ?_⟩
    · rw [h3c]; simp [hlt']
    · rw [h3n, h3c]
    · rw [h3k]; simp [hlt']

/-- Flag and counter bookkeeping of a playing tick from a completed-and-notified
state: nothing changes except the emitted signals. -/
lemma tlTick_true_completed (s : TLState) (t : ℚ)
    (h : s.hasCompleted = true) (hn : s.completionNotified = true) :
    (tlTick s true t).startRef = s.startRef ∧ (tlTick s true t).hasCompleted = true ∧
    (tlTick s true t).completionNotified = true ∧
    (tlTick s true t).notifyCount = s.notifyCount := by
  have hp := tlPrime_fields s
  rw [tlTick_true_eq, if_pos (by rw [hp.2.1, h])]
  simp only [tlCompleted]
  rw [if_neg (by simp [hp.2.2.1, hn])]
  simp [hp.1, hp.2.1, h, hp.2.2.1, hn, hp.2.2.2.1]

/-- Flag bookkeeping across a whole run of playing ticks from a mid-session
state: the completion latch is set exactly when some tick's clock reading is
at least `totalAnimationTime` past the session start, and the callback counter
increments exactly once, at the first such tick. -/
lemma playFold_mid (t0 : ℚ) :
    ∀ (ts : List ℚ) (s1 : TLState) (b : Bool), s1.startRef = some t0 →
      s1.hasCompleted = b → s1.completionNotified = b →
      (playFold s1 ts).startRef = some t0 ∧
      (playFold s1 ts).hasCompleted =
        (b || ts.any fun u => decide (totalAnimationTime ≤ u - t0)) ∧
      (playFold s1 ts).completionNotified = (playFold s1 ts).hasCompleted ∧
      (playFold s1 ts).notifyCount = s1.notifyCount +
        (if b = false ∧ (ts.any fun u => decide (totalAnimationTime ≤ u - t0)) = true
         then 1 else 0) := by
  intro ts
  induction ts with
  | nil => intro s1 b hs hc hn; simp [playFold, hs, hc, hn]
  | cons t ts ih =>
    intro s1 b hs hc hn
    have hfold : playFold s1 (t :: ts) = playFold (tlTick s1 true t) ts := by
      simp [playFold]
    rw [hfold]
    cases b with
    | true =>
      have hstep := tlTick_true_completed s1 t hc hn
      have := ih (tlTick s1 true t) true (hstep.1.trans hs) hstep.2.1 hstep.2.2.1
      refine ⟨this.1, by simpa using this.2.1, this.2.2.1, ?_⟩
      rw [this.2.2.2, hstep.2.2.2]
      simp
    | false =>
      have hstep := tlTick_true_notCompleted s1 t hc hn
      rw [hs] at hstep
      simp only [Option.getD_some] at hstep
      set b2 := decide (totalAnimationTime ≤ t - t0) with hb2
      have := ih (tlTick s1 true t) b2 hstep.1 hstep.2.1
        (hstep.2.2.1.trans hstep.2.1)
      refine ⟨this.1, ?_, this.2.2.1, ?_⟩
      · rw [this.2.1]
        simp [List.any_cons]
      · rw [this.2.2.2, hstep.2.2.2]
        by_cases hT : totalAnimationTime ≤ t - t0
        · have : b2 = true := by simp [hb2, hT]
          simp [hT, this, List.any_cons, hb2]
        · have : b2 = false := by simp [hb2, hT]
          simp [hT, this, List.any_cons, hb2]

lemma totalAnimationTime_pos : (0:ℚ) < totalAnimationTime := by
  rw [totalAnimationTime_eq]; norm_num

/-- The first playing tick of a session stores the clock reading as the start
reference and cannot complete (its elapsed time is zero). -/
lemma tlTick_true_first (s : TLState) (t : ℚ) (hs : s.startRef = none)
    (h : s.hasCompleted = false) (hn : s.completionNotified = false) :
    (tlTick s true t).startRef = some t ∧ (tlTick s true t).hasCompleted = false ∧
    (tlTick s true t).completionNotified = false ∧
    (tlTick s true t).notifyCount = s.notifyCount := by
  have hfirst := tlTick_true_notCompleted s t h hn
  rw [hs] at hfirst
  simp only [Option.getD_none, sub_self] at hfirst
  have hTle : ¬ totalAnimationTime ≤ (0:ℚ) := not_le.mpr totalAnimationTime_pos
  refine ⟨hfirst.1, ?_, ?_, ?_⟩
  · rw [hfirst.2.1]; simp [hTle]
  · rw [hfirst.2.2.1, hfirst.2.1]; simp [hTle]
  · rw [hfirst.2.2.2]; simp [hTle]

/-- Across any single play session the callback counter grows by at most one. -/
lemma playFold_count_le (s0 : TLState) (hs : sessionReady s0) (ts : List ℚ) :
    (playFold s0 ts).notifyCount ≤ s0.notifyCount + 1 := by
  obtain ⟨h1, h2, h3⟩ := hs
  cases ts with
  | nil => simp [playFold]
  | cons h rest =>
    have hfirst := tlTick_true_first s0 h h1 h2 h3
    have hmid := playFold_mid h rest (tlTick s0 true h) false hfirst.1 hfirst.2.1 hfirst.2.2.1
    have : playFold s0 (h :: rest) = playFold (tlTick s0 true h) rest := by simp [playFold]
    rw [this, hmid.2.2.2, hfirst.2.2.2]
    split <;> omega

/-- C1: within one play session (ticks with `isPlaying = true` from a state
left by an `isPlaying = false` tick), the completion callback fires at a tick
exactly when that tick is the first whose elapsed time since the session start
reaches `totalAnimationTime`; over the whole session it fires at most once,
however many ticks land at or beyond the total. -/
theorem c1_completion_fires_once (s0 : TLState) (hs : sessionReady s0)
    (pre post : List ℚ) (t : ℚ) :
    ((playFold s0 (pre ++ [t])).notifyCount = (playFold s0 pre).notifyCount + 1 ↔
       (totalAnimationTime ≤ t - pre.headD t ∧
        ∀ u ∈ pre, u - pre.headD t < totalAnimationTime)) ∧
    (playFold s0 (pre ++ t :: post)).notifyCount ≤ s0.notifyCount + 1 := by
  obtain ⟨h1, h2, h3⟩ := hs
  refine ⟨?_, playFold_count_le s0 ⟨h1, h2, h3⟩ _⟩
  cases pre with
  | nil =>
    have hfirst := tlTick_true_first s0 t h1 h2 h3
    have hfold : playFold s0 ([] ++ [t]) = tlTick s0 true t := by simp [playFold]
    rw [hfold]
    simp only [playFold, List.foldl_nil, List.headD_nil, sub_self]
    rw [hfirst.2.2.2]
    constructor
    · intro hcon; omega
    · rintro ⟨hcon, -⟩
      exact absurd hcon (not_le.mpr totalAnimationTime_pos)
  | cons h pre' =>
    have hfirst := tlTick_true_first s0 h h1 h2 h3
    set s1 := tlTick s0 true h with hs1
    have hmid1 := playFold_mid h (pre' ++ [t]) s1 false hfirst.1 hfirst.2.1 hfirst.2.2.1
    have hmid2 := playFold_mid h pre' s1 false hfirst.1 hfirst.2.1 hfirst.2.2.1
    have hf1 : playFold s0 ((h :: pre') ++ [t]) = playFold s1 (pre' ++ [t]) := by
      simp [playFold]
    have hf2 : playFold s0 (h :: pre') = playFold s1 pre' := by simp [playFold]
    rw [hf1, hf2, hmid1.2.2.2, hmid2.2.2.2, hfirst.2.2.2]
    have hany : (List.any (pre' ++ [t]) fun u => decide (totalAnimationTime ≤ u - h)) =
        ((List.any pre' fun u => decide (totalAnimationTime ≤ u - h)) ||
          decide (totalAnimationTime ≤ t - h)) := by
      simp [List.any_append]
    rw [hany]
    have hhead : (h :: pre').headD t = h := rfl
    rw [hhead]
    by_cases hA : totalAnimationTime ≤ t - h <;>
      by_cases hB : (List.any pre' fun u => decide (totalAnimationTime ≤ u - h)) = true
    · -- a tick in `pre` already completed the session: no new fire at `t`
      rw [hB, decide_eq_true hA]
      rw [if_pos (show false = false ∧ ((true || true : Bool)) = true by simp)]
      rw [if_pos (show false = false ∧ (true : Bool) = true by simp)]
      constructor
      · intro hcon; omega
      · rintro ⟨-, hall⟩
        rw [List.any_eq_true] at hB
        obtain ⟨u, hu, hdu⟩ := hB
        exact absurd (hall u (List.mem_cons_of_mem _ hu)) (not_lt.mpr (of_decide_eq_true hdu))
    · -- `t` is the first completing tick: the callback fires here
      rw [Bool.not_eq_true] at hB
      rw [hB, decide_eq_true hA]
      rw [if_pos (show false = false ∧ ((false || true : Bool)) = true by simp)]
      rw [if_neg (show ¬(false = false ∧ (false : Bool) = true) by simp)]
      constructor
      · intro _
        refine ⟨hA, ?_⟩
        intro u hu
        rcases List.mem_cons.mp hu with rfl | hu'
        · simpa using totalAnimationTime_pos
        · by_contra hcon
          rw [List.any_eq_false] at hB
          exact absurd (decide_eq_true (not_lt.mp hcon)) (by simpa using hB u hu')
      · intro _; omega
    · rw [hB, decide_eq_false hA]
      rw [if_pos (show false = false ∧ ((true || false : Bool)) = true by simp)]
      rw [if_pos (show false = false ∧ (true : Bool) = true by simp)]
      constructor
      · intro hcon; omega
      · rintro ⟨hcon, -⟩; exact absurd hcon hA
    · rw [Bool.not_eq_true] at hB
      rw [hB, decide_eq_false hA]
      rw [if_neg (show ¬(false = false ∧ ((false || false : Bool)) = true) by simp)]
      rw [if_neg (show ¬(false = false ∧ (false : Bool) = true) by simp)]
      constructor
      · intro hcon; omega
      · rintro ⟨hcon, -⟩; exact absurd hcon hA

/-- Witness for C1 at a concrete session: start at clock `0`, complete at the
tick at clock `6` (elapsed `6 ≥ 5.2`), with a later tick at clock `7` that
must not fire again. -/
theorem c1_completion_fires_once_witness :
    sessionReady initTL ∧
    (((playFold initTL ([0, 6] ++ [7])).notifyCount = (playFold initTL [0, 6]).notifyCount + 1 ↔
       (totalAnimationTime ≤ 7 - ([0, (6:ℚ)]).headD 7 ∧
        ∀ u ∈ ([0, (6:ℚ)]), u - ([0, (6:ℚ)]).headD 7 < totalAnimationTime)) ∧
     (playFold initTL ([0, 6] ++ 7 :: [8])).notifyCount ≤ initTL.notifyCount + 1) :=
  ⟨⟨rfl, rfl, rfl⟩, c1_completion_fires_once initTL ⟨rfl, rfl, rfl⟩ [0, 6] [8] 7⟩

/-! ### The reachable-state invariant of the throttled signals

`tlInv s t` captures, for a state whose last tick happened at clock `t`:
the stored signal values are in `[0,1]`; the stored background value is
either exactly `1` or more than the throttle below `1` (symmetrically for the
environment value and `0`); and during a running session the stored values
never lag behind the current fade targets.  It is preserved by every tick
under a monotone clock. -/

/-- The background opacity pushed at raw elapsed time `e` of a session. -/
def bgTargetAt (e : ℚ) : ℚ := bgTargetCe (qclamp e 0 totalAnimationTime)

lemma bgTargetCe_mem (ce : ℚ) : 0 ≤ bgTargetCe ce ∧ bgTargetCe ce ≤ 1 := by
  simp only [bgTargetCe]
  split
  · norm_num
  · have hq := @qclamp_mem ((ce - BACKGROUND_FADE_START) / BACKGROUND_FADE_DURATION)
      (0:ℚ) 1 (by norm_num)
    have he := easeOutCubic_mem hq.1 hq.2
    constructor <;> linarith [he.1, he.2]

lemma bgTargetCe_anti {ce1 ce2 : ℚ} (h : ce1 ≤ ce2) : bgTargetCe ce2 ≤ bgTargetCe ce1 := by
  have hD : BACKGROUND_FADE_DURATION = 1 := rfl
  simp only [bgTargetCe, hD, div_one]
  split <;> rename_i h1 <;> split <;> rename_i h2
  · exact le_rfl
  · exact absurd (lt_of_le_of_lt h h1) h2
  · have hm := bgTargetCe_mem ce2
    rw [bgTargetCe, if_neg h1, hD, div_one] at hm
    exact hm.2
  · have hq : qclamp (ce1 - BACKGROUND_FADE_START) 0 1 ≤
        qclamp (ce2 - BACKGROUND_FADE_START) 0 1 := qclamp_mono (by linarith)
    linarith [easeOutCubic_mono hq]

lemma bgTargetAt_anti {e1 e2 : ℚ} (h : e1 ≤ e2) : bgTargetAt e2 ≤ bgTargetAt e1 :=
  bgTargetCe_anti (qclamp_mono h)

lemma bgTargetAt_mem (e : ℚ) : 0 ≤ bgTargetAt e ∧ bgTargetAt e ≤ 1 := bgTargetCe_mem _

lemma bgTargetAt_zero : bgTargetAt 0 = 1 := by
  have h0 : qclamp (0:ℚ) 0 totalAnimationTime = 0 :=
    qclamp_of_mem le_rfl totalAnimationTime_pos.le
  rw [bgTargetAt, h0, bgTargetCe, if_pos (by rw [fadeStart_eq]; norm_num)]

/-- Full case split of one throttled emission with an in-range value. -/
lemma emitVal_spec {cur v : ℚ} (hv0 : 0 ≤ v) (hv1 : v ≤ 1) :
    (5/1000 < |v - cur| ∧ emitVal cur v = v) ∨ (|v - cur| ≤ 5/1000 ∧ emitVal cur v = cur) := by
  have hq : qclamp v 0 1 = v := qclamp_of_mem hv0 hv1
  simp only [emitVal, hq]
  split
  · exact Or.inl ⟨by assumption, rfl⟩
  · exact Or.inr ⟨not_lt.mp (by assumption), rfl⟩

/-- The signal invariant; `t` is the clock reading of the last tick. -/
def tlInv (s : TLState) (t : ℚ) : Prop :=
  (0 ≤ s.bgRef ∧ s.bgRef ≤ 1) ∧ (0 ≤ s.envRef ∧ s.envRef ≤ 1) ∧
  (s.bgRef = 1 ∨ s.bgRef < 199/200) ∧
  (s.envRef = 0 ∨ 1/200 < s.envRef) ∧
  (∀ c, s.startRef = some c → s.hasCompleted = false →
     c ≤ t ∧ bgTargetAt (t - c) ≤ s.bgRef ∧ s.envRef ≤ 1 - bgTargetAt (t - c))

lemma tlNotPlaying_fields (s : TLState) :
    (tlNotPlaying s).bgRef = emitVal s.bgRef 1 ∧ (tlNotPlaying s).envRef = emitVal s.envRef 0 ∧
    (tlNotPlaying s).startRef = none ∧ (tlNotPlaying s).hasCompleted = false ∧
    (tlNotPlaying s).completionNotified = false ∧
    (tlNotPlaying s).cakePos = s.cakePos ∧ (tlNotPlaying s).cakeRotYPi = s.cakeRotYPi ∧
    (tlNotPlaying s).tablePos = s.tablePos ∧ (tlNotPlaying s).candlePos = s.candlePos ∧
    (tlNotPlaying s).candleVisible = s.candleVisible ∧
    (tlNotPlaying s).notifyCount = s.notifyCount ∧ (tlNotPlaying s).primed = s.primed := by
  simp [tlNotPlaying]

lemma tlCompleted_sig (s : TLState) :
    (tlCompleted s).bgRef = emitVal s.bgRef 0 ∧ (tlCompleted s).envRef = emitVal s.envRef 1 ∧
    (tlCompleted s).startRef = s.startRef ∧ (tlCompleted s).hasCompleted = s.hasCompleted := by
  simp only [tlCompleted]
  split <;> simp

/-- Signal/flag characterisation of a playing tick that reaches the total. -/
lemma tlPlay_sig_done (s : TLState) (t : ℚ)
    (hge : qclamp (t - s.startRef.getD t) 0 totalAnimationTime ≥ totalAnimationTime) :
    (tlPlay s t).startRef = some (s.startRef.getD t) ∧
    (tlPlay s t).bgRef =
      emitVal (emitVal s.bgRef (bgTargetCe (qclamp (t - s.startRef.getD t) 0 totalAnimationTime))) 0 ∧
    (tlPlay s t).envRef =
      emitVal (emitVal s.envRef (1 - bgTargetCe (qclamp (t - s.startRef.getD t) 0 totalAnimationTime))) 1 ∧
    (tlPlay s t).hasCompleted = true := by
  simp only [tlPlay]
  set c0 := s.startRef.getD t with hc0
  set ce := qclamp (t - c0) 0 totalAnimationTime with hce
  set s2 : TLState := { s with startRef := some c0 } with hs2
  have hpose := tlPoses_fields s2 ce
  have hfade := tlFadeEmit_fields (tlPoses s2 ce) ce
  have hs2b : s2.bgRef = s.bgRef := rfl
  have hs2e : s2.envRef = s.envRef := rfl
  have hs2s : s2.startRef = some c0 := rfl
  rw [if_pos hge]
  have hdone := tlDone_fields (tlFadeEmit (tlPoses s2 ce) ce)
  refine ⟨?_, ?_, ?_, hdone.2.1⟩
  · rw [hdone.1, hfade.1, hpose.1, hs2s]
  · rw [hdone.2.2.2.2.1, hfade.2.2.2.2.1, hpose.2.2.2.2.1, hs2b]
  · rw [hdone.2.2.2.2.2, hfade.2.2.2.2.2, hpose.2.2.2.2.2, hs2e]

/-- Signal/flag characterisation of a playing tick short of the total. -/
lemma tlPlay_sig_run (s : TLState) (t : ℚ)
    (hlt : ¬ qclamp (t - s.startRef.getD t) 0 totalAnimationTime ≥ totalAnimationTime) :
    (tlPlay s t).startRef = some (s.startRef.getD t) ∧
    (tlPlay s t).bgRef =
      emitVal s.bgRef (bgTargetCe (qclamp (t - s.startRef.getD t) 0 totalAnimationTime)) ∧
    (tlPlay s t).envRef =
      emitVal s.envRef (1 - bgTargetCe (qclamp (t - s.startRef.getD t) 0 totalAnimationTime)) ∧
    (tlPlay s t).hasCompleted = s.hasCompleted := by
  simp only [tlPlay]
  set c0 := s.startRef.getD t with hc0
  set ce := qclamp (t - c0) 0 totalAnimationTime with hce
  set s2 : TLState := { s with startRef := some c0 } with hs2
  have hpose := tlPoses_fields s2 ce
  have hfade := tlFadeEmit_fields (tlPoses s2 ce) ce
  have hs2b : s2.bgRef = s.bgRef := rfl
  have hs2e : s2.envRef = s.envRef := rfl
  have hs2s : s2.startRef = some c0 := rfl
  have hs2h : s2.hasCompleted = s.hasCompleted := rfl
  rw [if_neg hlt]
  refine ⟨?_, ?_, ?_, ?_⟩
  · rw [hfade.1, hpose.1, hs2s]
  · rw [hfade.2.2.2.2.1, hpose.2.2.2.2.1, hs2b]
  · rw [hfade.2.2.2.2.2, hpose.2.2.2.2.2, hs2e]
  · rw [hfade.2.1, hpose.2.1, hs2h]

lemma tlInv_init (t : ℚ) : tlInv initTL t := by
  refine ⟨⟨by norm_num [initTL], by norm_num [initTL]⟩,
    ⟨by norm_num [initTL], by norm_num [initTL]⟩,
    Or.inl rfl, Or.inl rfl, ?_⟩
  intro c hc
  simp [initTL] at hc

/-- The signal invariant is preserved by every tick under a monotone clock. -/
lemma tlInv_step {s : TLState} {t t' : ℚ} (p : Bool) (hinv : tlInv s t) (hle : t ≤ t') :
    tlInv (tlTick s p t') t' := by
  obtain ⟨⟨hb0, hb1⟩, ⟨he0, he1⟩, hJb, hJe, hK⟩ := hinv
  have hp := tlPrime_fields s
  cases p with
  | false =>
    rw [tlTick_false_eq]
    have hnp := tlNotPlaying_fields (tlPrime s)
    have hbg : (tlNotPlaying (tlPrime s)).bgRef = 1 := by
      rw [hnp.1, hp.2.2.2.2.1]; exact emitVal_one hJb
    have henv : (tlNotPlaying (tlPrime s)).envRef = 0 := by
      rw [hnp.2.1, hp.2.2.2.2.2.1]; exact emitVal_zero he0 hJe
    refine ⟨⟨by rw [hbg]; norm_num, le_of_eq hbg⟩,
      ⟨ge_of_eq henv, by rw [henv]; norm_num⟩, Or.inl hbg, Or.inl henv, ?_⟩
    intro c hc
    rw [hnp.2.2.1] at hc
    exact absurd hc (by simp)
  | true =>
    rw [tlTick_true_eq]
    by_cases hc1 : (tlPrime s).hasCompleted = true
    · rw [if_pos hc1]
      have hsig := tlCompleted_sig (tlPrime s)
      have hbs : (tlPrime s).bgRef = s.bgRef := hp.2.2.2.2.1
      have hes : (tlPrime s).envRef = s.envRef := hp.2.2.2.2.2.1
      have hbg : (tlCompleted (tlPrime s)).bgRef = emitVal s.bgRef 0 := by
        rw [hsig.1, hbs]
      have henv : (tlCompleted (tlPrime s)).envRef = emitVal s.envRef 1 := by
        rw [hsig.2.1, hes]
      have hbB := @emitVal_bounds s.bgRef 0 hb0 hb1
      have heB := @emitVal_bounds s.envRef 1 he0 he1
      refine ⟨⟨by rw [hbg]; exact hbB.1, by rw [hbg]; exact hbB.2⟩,
        ⟨by rw [henv]; exact heB.1, by rw [henv]; exact heB.2⟩, ?_, ?_, ?_⟩
      · right; rw [hbg]; linarith [emitVal_zero_le hb0]
      · right; rw [henv]; linarith [emitVal_one_ge he1]
      · intro c hcs hcc
        rw [hsig.2.2.2, hc1] at hcc
        exact absurd hcc (by simp)
    · rw [if_neg hc1]
      set st := tlPrime s with hst
      have hcF : st.hasCompleted = false := by revert hc1; cases st.hasCompleted <;> simp
      have hbs : st.bgRef = s.bgRef := hp.2.2.2.2.1
      have hes : st.envRef = s.envRef := hp.2.2.2.2.2.1
      have hss : st.startRef = s.startRef := hp.1
      set c0 := st.startRef.getD t' with hc0d
      set ce := qclamp (t' - c0) 0 totalAnimationTime with hced
      have hvat : bgTargetCe ce = bgTargetAt (t' - c0) := rfl
      have hvmem : 0 ≤ bgTargetCe ce ∧ bgTargetCe ce ≤ 1 := bgTargetCe_mem ce
      -- key relation between the pushed value and the stored values
      have hc0le : c0 ≤ t' := by
        rw [hc0d, hss]
        cases hsr : s.startRef with
        | none => simp
        | some c =>
          have := (hK c hsr (by rw [← hp.2.1, hcF])).1
          simpa using this.trans hle
      have hbgkey : bgTargetAt (t' - c0) ≤ s.bgRef ∨ bgTargetAt (t' - c0) = 1 := by
        rw [hc0d, hss]
        cases hsr : s.startRef with
        | none => right; simp [bgTargetAt_zero]
        | some c =>
          left
          have hk := hK c hsr (by rw [← hp.2.1, hcF])
          have := @bgTargetAt_anti (t - c) (t' - c) (by linarith)
          simpa using this.trans hk.2.1
      have henvkey : s.envRef ≤ 1 - bgTargetAt (t' - c0) ∨ bgTargetAt (t' - c0) = 1 := by
        rw [hc0d, hss]
        cases hsr : s.startRef with
        | none => right; simp [bgTargetAt_zero]
        | some c =>
          left
          have hk := hK c hsr (by rw [← hp.2.1, hcF])
          have := @bgTargetAt_anti (t - c) (t' - c) (by linarith)
          simpa using hk.2.2.trans (by linarith)
      -- behaviour of the two fade emissions, phrased over `bgTargetAt`
      have hbg1 := @emitVal_spec s.bgRef _ hvmem.1 hvmem.2
      have henv1 := @emitVal_spec s.envRef (1 - bgTargetCe ce)
        (by linarith [hvmem.2]) (by linarith [hvmem.1])
      have hbg1B := @emitVal_bounds s.bgRef (bgTargetCe ce) hb0 hb1
      have henv1B := @emitVal_bounds s.envRef (1 - bgTargetCe ce) he0 he1
      rw [hvat] at hvmem hbg1 henv1 hbg1B henv1B
      by_cases hge : ce ≥ totalAnimationTime
      · -- completing tick: the final snap emits (0,1) on top of the fade emit
        have hsig := tlPlay_sig_done st t' (by rw [← hc0d, ← hced]; exact hge)
        rw [hbs, hes, ← hc0d, ← hced, hvat] at hsig
        have hbB := @emitVal_bounds (emitVal s.bgRef (bgTargetAt (t' - c0))) 0 hbg1B.1 hbg1B.2
        have heB := @emitVal_bounds (emitVal s.envRef (1 - bgTargetAt (t' - c0))) 1 henv1B.1 henv1B.2
        refine ⟨⟨by rw [hsig.2.1]; exact hbB.1, by rw [hsig.2.1]; exact hbB.2⟩,
          ⟨by rw [hsig.2.2.1]; exact heB.1, by rw [hsig.2.2.1]; exact heB.2⟩, ?_, ?_, ?_⟩
        · right; rw [hsig.2.1]; linarith [emitVal_zero_le hbg1B.1]
        · right; rw [hsig.2.2.1]; linarith [emitVal_one_ge henv1B.2]
        · intro c hcs hcc
          rw [hsig.2.2.2] at hcc
          exact absurd hcc (by simp)
      · -- mid-session tick
        have hsig := tlPlay_sig_run st t' (by rw [← hc0d, ← hced]; exact hge)
        rw [hbs, hes, ← hc0d, ← hced, hvat] at hsig
        have hJb' : (tlPlay st t').bgRef = 1 ∨ (tlPlay st t').bgRef < 199/200 := by
          rw [hsig.2.1]
          rcases hbg1 with ⟨hdist, hupd⟩ | ⟨hdist, hkeep⟩
          · rw [hupd]
            rcases hbgkey with hkle | hk1
            · rcases hJb with hb1' | hblt
              · right
                rw [hb1'] at hdist
                rw [show |bgTargetAt (t' - c0) - 1| = 1 - bgTargetAt (t' - c0) from by
                  rw [abs_sub_comm]; exact abs_of_nonneg (by linarith [hvmem.2])] at hdist
                linarith
              · right; linarith
            · exact Or.inl hk1
          · rw [hkeep]; exact hJb
        have hJe' : (tlPlay st t').envRef = 0 ∨ 1/200 < (tlPlay st t').envRef := by
          rw [hsig.2.2.1]
          rcases henv1 with ⟨hdist, hupd⟩ | ⟨hdist, hkeep⟩
          · rw [hupd]
            rcases henvkey with hkle | hk1
            · rcases hJe with he0' | hegt
              · right
                rw [he0'] at hdist
                rw [show |1 - bgTargetAt (t' - c0) - 0| = 1 - bgTargetAt (t' - c0) from by
                  rw [sub_zero]; exact abs_of_nonneg (by linarith [hvmem.2])] at hdist
                linarith
              · right; linarith
            · left; rw [hk1]; ring
          · rw [hkeep]; exact hJe
        have hKb' : bgTargetAt (t' - c0) ≤ (tlPlay st t').bgRef := by
          rw [hsig.2.1]
          rcases hbg1 with ⟨hdist, hupd⟩ | ⟨hdist, hkeep⟩
          · rw [hupd]
          · rw [hkeep]
            rcases hbgkey with hkle | hk1
            · exact hkle
            · rw [hk1] at hdist ⊢
              rw [show |1 - s.bgRef| = 1 - s.bgRef from abs_of_nonneg (by linarith)] at hdist
              rcases hJb with hb1' | hblt
              · rw [hb1']
              · linarith
        have hKe' : (tlPlay st t').envRef ≤ 1 - bgTargetAt (t' - c0) := by
          rw [hsig.2.2.1]
          rcases henv1 with ⟨hdist, hupd⟩ | ⟨hdist, hkeep⟩
          · rw [hupd]
          · rw [hkeep]
            rcases henvkey with hkle | hk1
            · exact hkle
            · rw [hk1] at hdist ⊢
              rw [show |1 - (1:ℚ) - s.envRef| = s.envRef from by
                rw [show (1:ℚ) - 1 - s.envRef = -s.envRef by ring, abs_neg]
                exact abs_of_nonneg he0] at hdist
              rcases hJe with he0' | hegt
              · rw [he0']; norm_num
              · linarith
        refine ⟨⟨by rw [hsig.2.1]; exact hbg1B.1, by rw [hsig.2.1]; exact hbg1B.2⟩,
          ⟨by rw [hsig.2.2.1]; exact henv1B.1, by rw [hsig.2.2.1]; exact henv1B.2⟩,
          hJb', hJe', ?_⟩
        intro c hcs hcc
        rw [hsig.1] at hcs
        injection hcs with hcs
        subst hcs
        exact ⟨hc0le, hKb', hKe'⟩

/-- Every reachable timeline state satisfies the signal invariant. -/
lemma TLReach_inv {s : TLState} {t : ℚ} (h : TLReach s t) : tlInv s t := by
  induction h with
  | base t => exact tlInv_init t
  | step h p hle ih => exact tlInv_step p ih hle

lemma tlPrime_of_primed {s : TLState} (h : s.primed = true) : tlPrime s = s := by
  simp [tlPrime, h]

/-- An `isPlaying = false` tick is the identity on a state that already shows
the idle signals and cleared session bookkeeping. -/
lemma tlNotPlaying_idem (s : TLState) (hbg : s.bgRef = 1) (henv : s.envRef = 0)
    (hsr : s.startRef = none) (hc : s.hasCompleted = false)
    (hn : s.completionNotified = false) : tlNotPlaying s = s := by
  have h1 : emitVal s.bgRef 1 = s.bgRef := by rw [hbg]; exact emitVal_one (Or.inl rfl)
  have h2 : emitVal s.envRef 0 = s.envRef := by rw [henv]; exact emitVal_zero le_rfl (Or.inl rfl)
  apply TLState.ext <;> simp [tlNotPlaying, h1, h2, hsr, hc, hn]

/-- C9: a tick with `isPlaying = false`, from any reachable state, emits
exactly `(1, 0)`, never touches the object poses once primed, and further
such ticks are the identity. -/
theorem c9_idle_tick_idempotent (s : TLState) (t t' t'' : ℚ) (hR : TLReach s t) :
    (tlTick s false t').bgRef = 1 ∧ (tlTick s false t').envRef = 0 ∧
    (s.primed = true →
      (tlTick s false t').cakePos = s.cakePos ∧
      (tlTick s false t').cakeRotYPi = s.cakeRotYPi ∧
      (tlTick s false t').tablePos = s.tablePos ∧
      (tlTick s false t').candlePos = s.candlePos ∧
      (tlTick s false t').candleVisible = s.candleVisible) ∧
    tlTick (tlTick s false t') false t'' = tlTick s false t' := by
  obtain ⟨⟨hb0, hb1⟩, ⟨he0, he1⟩, hJb, hJe, hK⟩ := TLReach_inv hR
  have hp := tlPrime_fields s
  have hnp := tlNotPlaying_fields (tlPrime s)
  have hbg : (tlTick s false t').bgRef = 1 := by
    rw [tlTick_false_eq, hnp.1, hp.2.2.2.2.1]; exact emitVal_one hJb
  have henv : (tlTick s false t').envRef = 0 := by
    rw [tlTick_false_eq, hnp.2.1, hp.2.2.2.2.2.1]; exact emitVal_zero he0 hJe
  refine ⟨hbg, henv, ?_, ?_⟩
  · intro hpr
    have hnp2 := tlNotPlaying_fields s
    rw [tlTick_false_eq, tlPrime_of_primed hpr]
    exact ⟨hnp2.2.2.2.2.2.1, hnp2.2.2.2.2.2.2.1, hnp2.2.2.2.2.2.2.2.1,
      hnp2.2.2.2.2.2.2.2.2.1, hnp2.2.2.2.2.2.2.2.2.2.1⟩
  · have hpr' : (tlTick s false t').primed = true := by
      rw [tlTick_false_eq, hnp.2.2.2.2.2.2.2.2.2.2.2, hp.2.2.2.2.2.2]
    have hsr' : (tlTick s false t').startRef = none := by
      rw [tlTick_false_eq, hnp.2.2.1]
    have hc' : (tlTick s false t').hasCompleted = false := by
      rw [tlTick_false_eq, hnp.2.2.2.1]
    have hn' : (tlTick s false t').completionNotified = false := by
      rw [tlTick_false_eq, hnp.2.2.2.2.1]
    rw [tlTick_false_eq (tlTick s false t') t'', tlPrime_of_primed hpr',
      tlNotPlaying_idem _ hbg henv hsr' hc' hn']

/-- Witness for C9 on a concrete reachable state (two playing ticks into a
session, mid-fade), with the idle tick at clock `4` and another at `5`. -/
theorem c9_idle_tick_idempotent_witness :
    letI s := tlTick (tlTick initTL true 0) true (7/2)
    (tlTick s false 4).bgRef = 1 ∧ (tlTick s false 4).envRef = 0 ∧
    (s.primed = true →
      (tlTick s false 4).cakePos = s.cakePos ∧
      (tlTick s false 4).cakeRotYPi = s.cakeRotYPi ∧
      (tlTick s false 4).tablePos = s.tablePos ∧
      (tlTick s false 4).candlePos = s.candlePos ∧
      (tlTick s false 4).candleVisible = s.candleVisible) ∧
    tlTick (tlTick s false 4) false 5 = tlTick s false 4 :=
  c9_idle_tick_idempotent _ (7/2) 4 5
    (TLReach.step (TLReach.step (TLReach.base 0) true le_rfl) true (by norm_num))

/-- C2 as corrected: along any reachable playing tick the observer-visible
background value never increases and the environment value never decreases
once the fade window has begun (or after completion), and any tick whose
elapsed time reaches the total leaves the observer-visible values within the
`0.005` throttle of `(0, 1)` — not necessarily exactly `(0, 1)`. -/
theorem c2_fade_monotone_within_throttle (s : TLState) (t t' c : ℚ)
    (hR : TLReach s t) (hle : t ≤ t') :
    (s.startRef = some c → (s.hasCompleted = true ∨ BACKGROUND_FADE_START ≤ t' - c) →
       (tlTick s true t').bgRef ≤ s.bgRef ∧ s.envRef ≤ (tlTick s true t').envRef) ∧
    ((s.hasCompleted = true ∨ (s.startRef = some c ∧ totalAnimationTime ≤ t' - c)) →
       (tlTick s true t').bgRef ≤ 1/200 ∧ 199/200 ≤ (tlTick s true t').envRef) := by
  obtain ⟨⟨hb0, hb1⟩, ⟨he0, he1⟩, hJb, hJe, hK⟩ := TLReach_inv hR
  have hp := tlPrime_fields s
  have hbs : (tlPrime s).bgRef = s.bgRef := hp.2.2.2.2.1
  have hes : (tlPrime s).envRef = s.envRef := hp.2.2.2.2.2.1
  have hss : (tlPrime s).startRef = s.startRef := hp.1
  have hmain : ∀ hsr : s.startRef = some c, s.hasCompleted = false →
      (tlTick s true t').bgRef ≤ s.bgRef ∧ s.envRef ≤ (tlTick s true t').envRef ∧
      (totalAnimationTime ≤ t' - c →
        (tlTick s true t').bgRef ≤ 1/200 ∧ 199/200 ≤ (tlTick s true t').envRef) := by
    intro hsr hcF
    rw [tlTick_true_eq, if_neg (by rw [hp.2.1, hcF]; simp)]
    have hg : (tlPrime s).startRef.getD t' = c := by rw [hss, hsr]; rfl
    have hk := hK c hsr hcF
    have hv0 : bgTargetAt (t' - c) ≤ s.bgRef :=
      le_trans (bgTargetAt_anti (by linarith : t - c ≤ t' - c)) hk.2.1
    have hw0 : s.envRef ≤ 1 - bgTargetAt (t' - c) :=
      hk.2.2.trans (by linarith [bgTargetAt_anti (by linarith : t - c ≤ t' - c)])
    have hvm := bgTargetAt_mem (t' - c)
    have hvat : bgTargetCe (qclamp (t' - c) 0 totalAnimationTime) = bgTargetAt (t' - c) := rfl
    have hbg1le : emitVal s.bgRef (bgTargetAt (t' - c)) ≤ s.bgRef := emitVal_le hvm.1 hv0
    have henv1ge : s.envRef ≤ emitVal s.envRef (1 - bgTargetAt (t' - c)) :=
      emitVal_ge (by linarith [hvm.1]) hw0 he0
    have hbg1B := @emitVal_bounds s.bgRef (bgTargetAt (t' - c)) hb0 hb1
    have henv1B := @emitVal_bounds s.envRef (1 - bgTargetAt (t' - c)) he0 he1
    by_cases hge : qclamp (t' - (tlPrime s).startRef.getD t') 0 totalAnimationTime ≥ totalAnimationTime
    · have hsig := tlPlay_sig_done (tlPrime s) t' hge
      rw [hbs, hes, hg, hvat] at hsig
      have hbB := @emitVal_bounds (emitVal s.bgRef (bgTargetAt (t' - c))) 0 hbg1B.1 hbg1B.2
      have heB := @emitVal_bounds (emitVal s.envRef (1 - bgTargetAt (t' - c))) 1 henv1B.1 henv1B.2
      refine ⟨?_, ?_, fun _ => ⟨?_, ?_⟩⟩
      · rw [hsig.2.1]
        exact (emitVal_le le_rfl hbg1B.1).trans hbg1le
      · rw [hsig.2.2.1]
        exact henv1ge.trans (emitVal_ge le_rfl henv1B.2 henv1B.1)
      · rw [hsig.2.1]; exact emitVal_zero_le hbg1B.1
      · rw [hsig.2.2.1]; exact emitVal_one_ge henv1B.2
    · have hsig := tlPlay_sig_run (tlPrime s) t' hge
      rw [hbs, hes, hg, hvat] at hsig
      refine ⟨by rw [hsig.2.1]; exact hbg1le, by rw [hsig.2.2.1]; exact henv1ge, ?_⟩
      intro htot
      exfalso
      rw [hg] at hge
      exact hge (qclamp_total_ge_iff.mpr htot)
  have hcompl : s.hasCompleted = true →
      (tlTick s true t').bgRef = emitVal s.bgRef 0 ∧
      (tlTick s true t').envRef = emitVal s.envRef 1 := by
    intro hcT
    rw [tlTick_true_eq, if_pos (by rw [hp.2.1, hcT])]
    have hsig := tlCompleted_sig (tlPrime s)
    exact ⟨hsig.1.trans (by rw [hbs]), hsig.2.1.trans (by rw [hes])⟩
  constructor
  · intro hsr hcond
    cases hcase : s.hasCompleted with
    | true =>
      have hc2 := hcompl hcase
      constructor
      · rw [hc2.1]; exact emitVal_le le_rfl hb0
      · rw [hc2.2]; exact emitVal_ge le_rfl he1 he0
    | false =>
      have := hmain hsr hcase
      exact ⟨this.1, this.2.1⟩
  · intro hcond
    cases hcase : s.hasCompleted with
    | true =>
      have hc2 := hcompl hcase
      constructor
      · rw [hc2.1]; exact emitVal_zero_le hb0
      · rw [hc2.2]; exact emitVal_one_ge he1
    | false =>
      rcases hcond with hcT | ⟨hsr, htot⟩
      · rw [hcase] at hcT; exact absurd hcT (by simp)
      · exact (hmain hsr hcase).2.2 htot

/-- Witness for C2's corrected statement: one playing tick into a session
started at clock `0`, ticked again at clock `26/5 = totalAnimationTime`. -/
theorem c2_fade_monotone_within_throttle_witness :
    letI s := tlTick initTL true 0
    (s.startRef = some 0 → (s.hasCompleted = true ∨ BACKGROUND_FADE_START ≤ 26/5 - 0) →
       (tlTick s true (26/5)).bgRef ≤ s.bgRef ∧ s.envRef ≤ (tlTick s true (26/5)).envRef) ∧
    ((s.hasCompleted = true ∨ (s.startRef = some 0 ∧ totalAnimationTime ≤ 26/5 - 0)) →
       (tlTick s true (26/5)).bgRef ≤ 1/200 ∧ 199/200 ≤ (tlTick s true (26/5)).envRef) :=
  c2_fade_monotone_within_throttle _ 0 (26/5) 0
    (TLReach.step (TLReach.base 0) true le_rfl) (by norm_num)

/-- Counterexample to C2 as stated: ticking a fresh session at clocks
`0, 3.5, 3.9, 5.2` completes the timeline at the last tick, yet the
observer-visible signals finish at `(1/1000, 999/1000)`, not exactly `(0, 1)`:
the last stored fade values are within the `0.005` throttle of the endpoint,
so the final emissions of `0` and `1` are swallowed. -/
theorem c2_exact_boundary_counterexample :
    (playFold initTL [0, 7/2, 39/10, 26/5]).hasCompleted = true ∧
    (playFold initTL [0, 7/2, 39/10, 26/5]).bgRef = 1/1000 ∧
    (playFold initTL [0, 7/2, 39/10, 26/5]).envRef = 999/1000 ∧
    ¬((playFold initTL [0, 7/2, 39/10, 26/5]).bgRef = 0 ∧
      (playFold initTL [0, 7/2, 39/10, 26/5]).envRef = 1) := by
  norm_num [playFold, tlTick, tlPrime, tlNotPlaying, tlCompleted, tlPlay, tlPoses,
    tlFadeEmit, tlDone, emitVal, qclamp, easeOutCubic, lerp, bgTargetCe, initTL,
    totalAnimationTime, CANDLE_DROP_START, CAKE_DESCENT_DURATION, TABLE_SLIDE_START,
    TABLE_SLIDE_DURATION, CANDLE_DROP_DURATION, BACKGROUND_FADE_START, BACKGROUND_FADE_END,
    BACKGROUND_FADE_DURATION, BACKGROUND_FADE_OFFSET, CAKE_START_Y, CAKE_END_Y,
    TABLE_START_Z, TABLE_END_Z, CANDLE_START_Y, CANDLE_END_Y, min_def, max_def, abs]

/-! ### Pose characterisation for C6 -/

/-- The cake's Y position at clamped elapsed time `ce` (lines 255-257). -/
def cakeYAt (ce : ℚ) : ℚ :=
  lerp CAKE_START_Y CAKE_END_Y (easeOutCubic (qclamp (ce / CAKE_DESCENT_DURATION) 0 1))

lemma cakeYAt_anti {ce1 ce2 : ℚ} (h : ce1 ≤ ce2) : cakeYAt ce2 ≤ cakeYAt ce1 := by
  have hdiv : ce1 / CAKE_DESCENT_DURATION ≤ ce2 / CAKE_DESCENT_DURATION := by
    have h3 : CAKE_DESCENT_DURATION = 3 := rfl
    rw [h3]; linarith
  have := easeOutCubic_mono (@qclamp_mono _ _ 0 1 hdiv)
  simp only [cakeYAt, lerp, CAKE_START_Y, CAKE_END_Y]
  linarith

lemma cakeYAt_zero : cakeYAt 0 = CAKE_START_Y := by
  norm_num [cakeYAt, lerp, easeOutCubic, qclamp, CAKE_DESCENT_DURATION, min_def, max_def]

lemma cakeYAt_total : cakeYAt totalAnimationTime = CAKE_END_Y := by
  rw [totalAnimationTime_eq]
  norm_num [cakeYAt, lerp, easeOutCubic, qclamp, CAKE_DESCENT_DURATION, CAKE_START_Y,
    CAKE_END_Y, min_def, max_def]

lemma tlPoses_pose (s : TLState) (ce : ℚ) :
    (tlPoses s ce).cakePos = (0, cakeYAt ce, 0) ∧
    ((tlPoses s ce).candleVisible = true ↔ CANDLE_DROP_START ≤ ce) := by
  simp only [tlPoses, cakeYAt]
  constructor
  · split <;> simp
  · split <;> rename_i hc <;> simp [hc]

lemma tlFadeEmit_pose (s : TLState) (ce : ℚ) :
    (tlFadeEmit s ce).cakePos = s.cakePos ∧
    (tlFadeEmit s ce).candleVisible = s.candleVisible := by
  simp [tlFadeEmit]

lemma tlDone_pose (s : TLState) :
    (tlDone s).cakePos = (0, CAKE_END_Y, 0) ∧ (tlDone s).candleVisible = true := by
  simp only [tlDone]
  split <;> simp

lemma qclamp_candle_ge_iff {e : ℚ} :
    CANDLE_DROP_START ≤ qclamp e 0 totalAnimationTime ↔ CANDLE_DROP_START ≤ e := by
  rw [candleDropStart_eq, totalAnimationTime_eq]
  simp only [qclamp, le_min_iff, le_max_iff]
  constructor
  · rintro ⟨-, h | h⟩
    · norm_num at h
    · exact h
  · intro h
    exact ⟨by norm_num, Or.inr h⟩

/-- Cake position and candle visibility of a playing tick from a
not-yet-completed session state. -/
lemma tlTick_pose (s : TLState) (c t : ℚ) (hsr : s.startRef = some c)
    (hc : s.hasCompleted = false) :
    (tlTick s true t).cakePos = (0, cakeYAt (qclamp (t - c) 0 totalAnimationTime), 0) ∧
    ((tlTick s true t).candleVisible = true ↔ CANDLE_DROP_START ≤ t - c) := by
  have hp := tlPrime_fields s
  rw [tlTick_true_eq, if_neg (by rw [hp.2.1, hc]; simp)]
  have hg : (tlPrime s).startRef.getD t = c := by rw [hp.1, hsr]; rfl
  simp only [tlPlay, hg]
  set s2 : TLState := { tlPrime s with startRef := some c } with hs2
  set ce := qclamp (t - c) 0 totalAnimationTime with hce
  have hpose := tlPoses_pose s2 ce
  have hfade := tlFadeEmit_pose (tlPoses s2 ce) ce
  split
  · rename_i hge
    have hdone := tlDone_pose (tlFadeEmit (tlPoses s2 ce) ce)
    have hcetot : ce = totalAnimationTime := by
      have hle' : ce ≤ totalAnimationTime := by
        rw [hce]; exact (qclamp_mem totalAnimationTime_pos.le).2
      exact le_antisymm hle' hge
    refine ⟨?_, ?_⟩
    · rw [hdone.1, hcetot, cakeYAt_total]
    · rw [hdone.2]
      have : CANDLE_DROP_START ≤ t - c := by
        rw [← qclamp_candle_ge_iff, ← hce, hcetot, candleDropStart_eq, totalAnimationTime_eq]
        norm_num
      simp [this]
  · refine ⟨?_, ?_⟩
    · rw [hfade.1, hpose.1]
    · rw [hfade.2]
      rw [hpose.2, hce]
      exact qclamp_candle_ge_iff

/-- C6: replaying the timeline from a fresh session started at clock `c`,
the cake's Y position is non-increasing in time, starts at the start height,
ends at the end height at `c + totalAnimationTime`, and the candle is visible
exactly from elapsed time `CANDLE_DROP_START` on. -/
theorem c6_cake_descends_candle_visibility (s0 : TLState) (c : ℚ) (hs : sessionReady s0) :
    (∀ t1 t2, t1 ≤ t2 →
       (tlTick (tlTick s0 true c) true t2).cakePos.2.1 ≤
         (tlTick (tlTick s0 true c) true t1).cakePos.2.1) ∧
    (tlTick (tlTick s0 true c) true c).cakePos.2.1 = CAKE_START_Y ∧
    (tlTick (tlTick s0 true c) true (c + totalAnimationTime)).cakePos.2.1 = CAKE_END_Y ∧
    (∀ t, ((tlTick (tlTick s0 true c) true t).candleVisible = true ↔
       CANDLE_DROP_START ≤ t - c)) := by
  obtain ⟨h1, h2, h3⟩ := hs
  have hfirst := tlTick_true_first s0 c h1 h2 h3
  have hpose : ∀ t, (tlTick (tlTick s0 true c) true t).cakePos =
      (0, cakeYAt (qclamp (t - c) 0 totalAnimationTime), 0) ∧
      ((tlTick (tlTick s0 true c) true t).candleVisible = true ↔ CANDLE_DROP_START ≤ t - c) :=
    fun t => tlTick_pose _ c t hfirst.1 hfirst.2.1
  refine ⟨?_, ?_, ?_, fun t => (hpose t).2⟩
  · intro t1 t2 h12
    rw [(hpose t1).1, (hpose t2).1]
    exact cakeYAt_anti (qclamp_mono (by linarith))
  · rw [(hpose c).1]
    show cakeYAt (qclamp (c - c) 0 totalAnimationTime) = CAKE_START_Y
    rw [sub_self, qclamp_of_mem le_rfl totalAnimationTime_pos.le, cakeYAt_zero]
  · rw [(hpose (c + totalAnimationTime)).1]
    show cakeYAt (qclamp (c + totalAnimationTime - c) 0 totalAnimationTime) = CAKE_END_Y
    rw [add_sub_cancel_left, qclamp_of_mem totalAnimationTime_pos.le le_rfl, cakeYAt_total]

/-- Witness for C6 on a session started at clock `0` from the mount state. -/
theorem c6_cake_descends_candle_visibility_witness :
    (∀ t1 t2, t1 ≤ t2 →
       (tlTick (tlTick initTL true 0) true t2).cakePos.2.1 ≤
         (tlTick (tlTick initTL true 0) true t1).cakePos.2.1) ∧
    (tlTick (tlTick initTL true 0) true 0).cakePos.2.1 = CAKE_START_Y ∧
    (tlTick (tlTick initTL true 0) true (0 + totalAnimationTime)).cakePos.2.1 = CAKE_END_Y ∧
    (∀ t, ((tlTick (tlTick initTL true 0) true t).candleVisible = true ↔
       CANDLE_DROP_START ≤ t - 0)) :=
  c6_cake_descends_candle_visibility initTL 0 ⟨rfl, rfl, rfl⟩

/-! ### Interactive prop drag controller (`src/src/models/pictureFrame.tsx`)

Event-level embedding of the drag interaction: the component's refs
(`isDragging`, `hasDragged`), the React state `rotationOffset`, the external
`isActive` prop, and — as explicit booleans — whether the window
`pointermove`/`pointerup` listeners are currently registered
(`addEventListener` with the same stable callback reference is idempotent, so
a boolean captures the registration state exactly). -/

inductive DragEvent where
  /-- `handlePointerDown` on the prop's hit region (lines 274-295). -/
  | pointerDownOnProp
  /-- `onWindowPointerUp`, reachable only while the window listener is
  attached; dispatching it when detached is a no-op, and the handler itself
  is guarded by `isDragging`, so modelling it as always dispatchable is
  conservative (lines 264-272). -/
  | windowPointerUp
  /-- The `isActive` prop changing; the `false` case runs the deactivation
  effect (lines 133-147). -/
  | setActive (b : Bool)
  /-- `onWindowPointerMove` with pointer deltas in pixels (lines 241-262). -/
  | windowPointerMove (dx dy : ℚ)
deriving DecidableEq

structure DragState where
  isActive : Bool
  isDragging : Bool
  hasDragged : Bool
  moveListener : Bool
  upListener : Bool
  rotX : ℚ
  rotY : ℚ
deriving DecidableEq

/-- Mount state: no interaction yet, no listeners, identity rotation offset. -/
def dragInit : DragState :=
  { isActive := false, isDragging := false, hasDragged := false
    moveListener := false, upListener := false, rotX := 0, rotY := 0 }

/-- One event of the drag controller, translated handler by handler. -/
def dragStep (s : DragState) : DragEvent → DragState
  | .pointerDownOnProp =>
      -- lines 278-292: only while the prop is active; registers both
      -- window listeners and starts the drag
      if s.isActive then
        { s with isDragging := true, hasDragged := false
                 moveListener := true, upListener := true }
      else s
  | .windowPointerUp =>
      -- lines 264-272: removes the listeners only when `isDragging` is set
      if s.isDragging then
        { s with isDragging := false, moveListener := false, upListener := false }
      else s
  | .setActive b =>
      if b then { s with isActive := true }
      else
        -- deactivation effect, lines 133-147: resets the rotation offset and
        -- the drag flags but does not touch the window listeners
        { s with isActive := false, rotX := 0, rotY := 0
                 isDragging := false, hasDragged := false }
  | .windowPointerMove dx dy =>
      -- lines 241-262: guarded by `isDragging`; accumulates the offset with
      -- sensitivity 0.012 and latches `hasDragged` past the 2px threshold
      if s.isDragging then
        { s with rotX := s.rotX - dy * (12/1000), rotY := s.rotY + dx * (12/1000)
                 hasDragged := if 2 < |dx| ∨ 2 < |dy| then true else s.hasDragged }
      else s

/-- Run of the drag controller from the mount state. -/
def dragRun (evs : List DragEvent) : DragState := evs.foldl dragStep dragInit

/-- C3 fails on the code: activating the prop, starting a drag, and then
deactivating the prop mid-drag (`isActive` set to `false`) leaves both window
listeners registered while `isDragging` is already cleared — and the
subsequent window pointer-up does NOT remove them, because `onWindowPointerUp`
is guarded by the cleared `isDragging` flag.  The listeners therefore leak,
violating "attached if and only if Dragging". -/
theorem c3_listener_leak_on_mid_drag_deactivation :
    (dragRun [DragEvent.setActive true, DragEvent.pointerDownOnProp,
        DragEvent.setActive false]).isDragging = false ∧
    (dragRun [DragEvent.setActive true, DragEvent.pointerDownOnProp,
        DragEvent.setActive false]).moveListener = true ∧
    (dragRun [DragEvent.setActive true, DragEvent.pointerDownOnProp,
        DragEvent.setActive false]).upListener = true ∧
    (dragRun [DragEvent.setActive true, DragEvent.pointerDownOnProp,
        DragEvent.setActive false, DragEvent.windowPointerUp]).moveListener = true ∧
    (dragRun [DragEvent.setActive true, DragEvent.pointerDownOnProp,
        DragEvent.setActive false, DragEvent.windowPointerUp]).upListener = true :=
  ⟨rfl, rfl, rfl, rfl, rfl⟩

/-! ### Host environment for the particle systems

The particle systems call four host facilities that are external to the core:
`Math.random()`, `Math.sin`, `Math.exp` (inside `MathUtils.damp`) and
`Date.now()`.  They are injected as an oracle structure so that every theorem
quantifies over all possible host behaviours.  Random draws are indexed by
draw site (each lexical `Math.random()` occurrence and loop index gets its own
index); where a claim depends on `Math.random() ∈ [0,1)` this is taken as a
hypothesis. -/
structure HostEnv where
  rand : ℕ → ℚ
  sinq : ℚ → ℚ
  /-- models `fun x => Math.exp (-x)` as used by `MathUtils.damp`. -/
  expn : ℚ → ℚ
  /-- models `Date.now()` (milliseconds) at the current frame. -/
  nowMs : ℚ

/-- `MathUtils.damp(x, y, lambda, dt) = lerp(x, y, 1 - exp(-lambda * dt))`. -/
def damp (env : HostEnv) (x y lambda dt : ℚ) : ℚ := lerp x y (1 - env.expn (lambda * dt))

/-- Indexed map mirroring `for (let i = 0; i < n; i++)` loops over a pool. -/
def mapWithIndex (f : ℕ → α → β) : ℕ → List α → List β
  | _, [] => []
  | i, a :: as => f i a :: mapWithIndex f (i + 1) as

lemma mapWithIndex_length (f : ℕ → α → β) :
    ∀ (k : ℕ) (l : List α), (mapWithIndex f k l).length = l.length := by
  intro k l
  induction l generalizing k with
  | nil => rfl
  | cons a as ih => simp [mapWithIndex, ih]

lemma mapWithIndex_getD (f : ℕ → α → α) :
    ∀ (l : List α) (k i : ℕ) (d : α), i < l.length →
      (mapWithIndex f k l).getD i d = f (k + i) (l.getD i d) := by
  intro l
  induction l with
  | nil => intro k i d hi; simp at hi
  | cons a as ih =>
    intro k i d hi
    cases i with
    | zero => simp [mapWithIndex]
    | succ j =>
      have hj : j < as.length := by simpa using hi
      simp only [mapWithIndex, List.getD_cons_succ]
      rw [ih (k + 1) j d hj]
      ring_nf

/-! ### Ambient sparkle field (`FallingSparkles`, `src/src/App.tsx` 725-854) -/

def PARTICLE_COUNT : ℕ := 400
def AREA_X : ℚ := 20
def AREA_Z : ℚ := 20
def TOP_Y : ℚ := 12
def BOTTOM_Y : ℚ := -2
def FALL_SPEED_MIN : ℚ := 8/10
def FALL_SPEED_MAX : ℚ := 2
def DRIFT_SPEED : ℚ := 3/10

structure Sparkle where
  pos : ℚ × ℚ × ℚ
  vel : ℚ × ℚ × ℚ
  color : ℚ × ℚ × ℚ
deriving DecidableEq

structure SparkleState where
  particles : List Sparkle
  opacity : ℚ
deriving DecidableEq

def sparkleDefault : Sparkle := { pos := (0, 0, 0), vel := (0, 0, 0), color := (0, 0, 0) }

/-- Colour assignment at construction (lines 765-782); draw sites are
relative to the particle's base index `b`. -/
def sparkleInitColor (env : HostEnv) (b : ℕ) : ℚ × ℚ × ℚ :=
  let palette := env.rand (b + 3)
  if palette < 4/10 then (1, 9/10 + env.rand (b + 4) * (1/10), 6/10 + env.rand (b + 5) * (3/10))
  else if palette < 7/10 then (1, 7/10 + env.rand (b + 4) * (2/10), 8/10 + env.rand (b + 5) * (2/10))
  else (1, 1, 1)

/-- One particle of the construction-time scatter (lines 758-788). -/
def sparkleInitOne (env : HostEnv) (i : ℕ) : Sparkle :=
  let b := 10 * i
  { pos := ((env.rand b - 1/2) * AREA_X,
            BOTTOM_Y + env.rand (b + 1) * (TOP_Y - BOTTOM_Y),
            (env.rand (b + 2) - 1/2) * AREA_Z)
    color := sparkleInitColor env b
    vel := ((env.rand (b + 6) - 1/2) * DRIFT_SPEED,
            -(FALL_SPEED_MIN + env.rand (b + 7) * (FALL_SPEED_MAX - FALL_SPEED_MIN)),
            (env.rand (b + 8) - 1/2) * DRIFT_SPEED) }

/-- The pool at construction: exactly `PARTICLE_COUNT` particles. -/
def sparkleInit (env : HostEnv) : SparkleState :=
  { particles := (List.range PARTICLE_COUNT).map (sparkleInitOne env), opacity := 0 }

/-- Per-particle integration and bottom-respawn (lines 809-825). -/
def sparkleStepOne (env : HostEnv) (delta : ℚ) (i : ℕ) (p : Sparkle) : Sparkle :=
  let sway := env.sinq (env.nowMs * (1/1000) + (i : ℚ)) * (15/100)
  let x := p.pos.1 + (p.vel.1 + sway) * delta
  let y := p.pos.2.1 + p.vel.2.1 * delta
  let z := p.pos.2.2 + (p.vel.2.2 + sway * (1/2)) * delta
  if y < BOTTOM_Y then
    { p with pos := ((env.rand (10 * i) - 1/2) * AREA_X,
                     TOP_Y + env.rand (10 * i + 1) * 2,
                     (env.rand (10 * i + 2) - 1/2) * AREA_Z) }
  else
    { p with pos := (x, y, z) }

/-- One execution of the `useFrame` body of `FallingSparkles`
(lines 793-828). -/
def sparkleTick (env : HostEnv) (s : SparkleState) (isActive : Bool) (rawDelta : ℚ) :
    SparkleState :=
  let delta := min rawDelta (1/20)
  if !isActive then { s with opacity := damp env s.opacity 0 4 delta }
  else
    { particles := mapWithIndex (sparkleStepOne env delta) 0 s.particles
      opacity := damp env s.opacity (6/10) 2 delta }

/-- C10: no tick creates or destroys a sparkle (the pool length is invariant,
and the constructed pool has exactly 400 particles), and a particle whose
integrated Y falls below `BOTTOM_Y` during an active tick is repositioned in
that same tick to `Y ≥ TOP_Y` (using `Math.random() ≥ 0`). -/
theorem c10_sparkle_pool_invariant_and_respawn (env : HostEnv) (s : SparkleState)
    (act : Bool) (raw : ℚ) (hr : ∀ k, 0 ≤ env.rand k) :
    (sparkleTick env s act raw).particles.length = s.particles.length ∧
    (sparkleInit env).particles.length = PARTICLE_COUNT ∧
    (∀ i, i < s.particles.length →
      (s.particles.getD i sparkleDefault).pos.2.1 +
        (s.particles.getD i sparkleDefault).vel.2.1 * min raw (1/20) < BOTTOM_Y →
      TOP_Y ≤ ((sparkleTick env s true raw).particles.getD i sparkleDefault).pos.2.1) := by
  refine ⟨?_, ?_, ?_⟩
  · simp only [sparkleTick]
    split
    · rfl
    · exact mapWithIndex_length _ _ _
  · simp [sparkleInit, PARTICLE_COUNT]
  · intro i hi hbelow
    have htick : (sparkleTick env s true raw).particles =
        mapWithIndex (sparkleStepOne env (min raw (1/20))) 0 s.particles := by
      simp [sparkleTick]
    rw [htick, mapWithIndex_getD _ s.particles 0 i sparkleDefault hi]
    simp only [Nat.zero_add, sparkleStepOne]
    rw [if_pos hbelow]
    have := hr (10 * i + 1)
    simp only [TOP_Y]
    linarith

/-- Witness for C10: a single-particle pool whose particle sits at `y = -3`
falling at speed `1`, ticked with raw delta `1`; zero oracle. -/
theorem c10_sparkle_pool_invariant_and_respawn_witness :
    letI env : HostEnv := { rand := fun _ => 0, sinq := fun _ => 0, expn := fun _ => 0, nowMs := 0 }
    letI s : SparkleState :=
      { particles := [{ pos := (0, -3, 0), vel := (0, -1, 0), color := (1, 1, 1) }]
        opacity := 0 }
    (sparkleTick env s true 1).particles.length = s.particles.length ∧
    (sparkleInit env).particles.length = PARTICLE_COUNT ∧
    (∀ i, i < s.particles.length →
      (s.particles.getD i sparkleDefault).pos.2.1 +
        (s.particles.getD i sparkleDefault).vel.2.1 * min 1 (1/20) < BOTTOM_Y →
      TOP_Y ≤ ((sparkleTick env s true 1).particles.getD i sparkleDefault).pos.2.1) :=
  c10_sparkle_pool_invariant_and_respawn _ _ true 1 (fun _ => le_rfl)

/-! ### Firework simulation (`src/unnamed/part_000`)

The component's preallocated `Float32Array` pools become functions `ℕ → ℚ`
(or triples for the interleaved xyz arrays), its per-shell state array a
function `ℕ → ShellState`, and the `useFrame` body a state-transition
function.  `Math.random()` draws are indexed by draw site via the
`launchBase`/`burstBase`/`trailBase`/`flickerBase` schemes below.  The
trigonometric direction factor of a burst particle's velocity
(`part_000` lines 129-131) is taken from the oracle field `burstDirAt`,
because `sin`/`cos`/`acos` have no rational embedding; the exact real-valued
formula behind it is stated and analysed over `ℝ` in the `burstVelocity`
section. -/

def MAX_SHELLS : ℕ := 12
def PARTICLES_PER_SHELL : ℕ := 80
def TRAIL_PARTICLES_PER_SHELL : ℕ := 12
def TOTAL_BURST : ℕ := MAX_SHELLS * PARTICLES_PER_SHELL
def GRAVITY : ℚ := -38/10
def DRAG : ℚ := 97/100
def LAUNCH_INTERVAL : ℚ := 35/100
def SHELL_RISE_SPEED_MIN : ℚ := 6
def SHELL_RISE_SPEED_MAX : ℚ := 10
def BURST_SPEED_MIN : ℚ := 2
def BURST_SPEED_MAX : ℚ := 5
def BURST_LIFETIME_MIN : ℚ := 1
def BURST_LIFETIME_MAX : ℚ := 22/10
def SPARKLE_SIZE : ℚ := 6/100
def TRAIL_SIZE : ℚ := 3/100
def SPREAD_X : ℚ := 4
def SPREAD_Z : ℚ := 16

/-- The seven fixed colour palettes (lines 40-55). -/
def PALETTES : List (List (ℚ × ℚ × ℚ)) :=
  [ [(1, 85/100, 3/10), (1, 95/100, 7/10), (1, 1, 1)],
    [(1, 2/10, 6/10), (1, 5/10, 8/10), (1, 8/10, 1)],
    [(2/10, 8/10, 1), (4/10, 6/10, 1), (7/10, 9/10, 1)],
    [(3/10, 1, 4/10), (6/10, 1, 3/10), (8/10, 1, 7/10)],
    [(1, 25/100, 15/100), (1, 55/100, 1/10), (1, 8/10, 4/10)],
    [(6/10, 2/10, 1), (8/10, 4/10, 1), (9/10, 7/10, 1)],
    [(1, 1, 1), (9/10, 95/100, 1), (8/10, 85/100, 95/100)] ]

inductive FwPhase where
  | rising
  | burst
deriving DecidableEq

structure ShellState where
  active : Bool
  phase : FwPhase
  x : ℚ
  z : ℚ
  riseY : ℚ
  riseVelocity : ℚ
  targetY : ℚ
  burstAge : ℚ
  /-- index into `PALETTES`; the source stores the palette array itself,
  `pickPalette()` selects `PALETTES[floor(random * 7)]`. -/
  paletteIdx : ℕ
deriving DecidableEq

/-- `initShell()` (lines 82-94). -/
def initShell : ShellState :=
  { active := false, phase := .rising, x := 0, z := 0, riseY := 0
    riseVelocity := 0, targetY := 0, burstAge := 0, paletteIdx := 0 }

structure FwState where
  shells : ℕ → ShellState
  positions : ℕ → ℚ × ℚ × ℚ
  velocities : ℕ → ℚ × ℚ × ℚ
  colors : ℕ → ℚ × ℚ × ℚ
  sizes : ℕ → ℚ
  ages : ℕ → ℚ
  lifetimes : ℕ → ℚ
  launchTimer : ℚ
  hasExplodedOnce : Bool
  burstOpacity : ℚ
  trailOpacity : ℚ

/-- Pool construction (lines 156-180): all shells inactive, all particles
off-screen with `age = 999`, `lifetime = 1`, `size = 0`. -/
def fwInit : FwState :=
  { shells := fun _ => initShell
    positions := fun _ => (0, -100, 0)
    velocities := fun _ => (0, 0, 0)
    colors := fun _ => (0, 0, 0)
    sizes := fun _ => 0
    ages := fun _ => 999
    lifetimes := fun _ => 1
    launchTimer := 0
    hasExplodedOnce := false
    burstOpacity := 0
    trailOpacity := 0 }

/-- Draw-site bases of the random oracle. -/
def launchBase (s : ℕ) : ℕ := 100000 + 10 * s
def burstBase (s p : ℕ) : ℕ := 200000 + 1000 * s + 10 * p
def trailBase (s t : ℕ) : ℕ := 300000 + 1000 * s + 10 * t
def flickerBase (s p : ℕ) : ℕ := 400000 + 1000 * s + 10 * p

/-- The oracle's trigonometric direction factor for the burst velocity at a
draw site: models `(sin φ cos θ, 0.6 sin φ sin θ + 0.5 cos φ, sin φ sin (θ + π/2))`
for the `theta`/`phi` drawn there (`part_000` lines 121-131; exact formula
analysed over `ℝ` as `burstVelocity`). -/
structure FwEnv extends HostEnv where
  burstDirAt : ℕ → ℚ × ℚ × ℚ

/-- `launchShell` (lines 96-107) on the shell using draw sites from `b`;
`origin` is the component's `baseOrigin` as an `(x, y, z)` triple. -/
def launchShell (env : FwEnv) (b : ℕ) (origin : ℚ × ℚ × ℚ) : ShellState :=
  { active := true
    phase := .rising
    x := origin.1 - env.rand b * SPREAD_X
    z := origin.2.2 + (env.rand (b + 1) - 1/2) * SPREAD_Z
    riseY := origin.2.1 - 4
    riseVelocity := SHELL_RISE_SPEED_MIN +
      env.rand (b + 2) * (SHELL_RISE_SPEED_MAX - SHELL_RISE_SPEED_MIN)
    targetY := origin.2.1 + env.rand (b + 3) * 4
    burstAge := 0
    paletteIdx := (⌊env.rand (b + 4) * (PALETTES.length : ℚ)⌋).toNat }

/-- Spawning one burst particle of a bursting shell (lines 116-141). -/
def burstSpawnOne (env : FwEnv) (sIdx : ℕ) (shell : ShellState) (p : ℕ) (st : FwState) :
    FwState :=
  let i := sIdx * PARTICLES_PER_SHELL + p
  let b := burstBase sIdx p
  let speed := BURST_SPEED_MIN + env.rand (b + 2) * (BURST_SPEED_MAX - BURST_SPEED_MIN)
  let d := env.burstDirAt b
  let palette := PALETTES.getD shell.paletteIdx []
  let c := palette.getD (⌊env.rand (b + 3) * (palette.length : ℚ)⌋).toNat (0, 0, 0)
  { st with
    positions := Function.update st.positions i (shell.x, shell.riseY, shell.z)
    velocities := Function.update st.velocities i (d.1 * speed, d.2.1 * speed, d.2.2 * speed)
    colors := Function.update st.colors i c
    sizes := Function.update st.sizes i (SPARKLE_SIZE * (6/10 + env.rand (b + 4) * (8/10)))
    lifetimes := Function.update st.lifetimes i
      (BURST_LIFETIME_MIN + env.rand (b + 5) * (BURST_LIFETIME_MAX - BURST_LIFETIME_MIN))
    ages := Function.update st.ages i 0 }

/-- `burstShell` (lines 109-142): fill the shell's whole burst slice. -/
def burstShell (env : FwEnv) (sIdx : ℕ) (shell : ShellState) (st : FwState) : FwState :=
  (List.range PARTICLES_PER_SHELL).foldl (fun st p => burstSpawnOne env sIdx shell p st) st

/-- Repositioning one trail particle of a rising shell (lines 250-264). -/
def trailUpdateOne (env : FwEnv) (sIdx : ℕ) (shell : ShellState) (t : ℕ) (st : FwState) :
    FwState :=
  let ti := TOTAL_BURST + sIdx * TRAIL_PARTICLES_PER_SHELL + t
  let b := trailBase sIdx t
  let trailOffset := ((t : ℚ) / (TRAIL_PARTICLES_PER_SHELL : ℚ)) * (15/10)
  let brightness := 1 - ((t : ℚ) / (TRAIL_PARTICLES_PER_SHELL : ℚ)) * (7/10)
  { st with
    positions := Function.update st.positions ti
      (shell.x + (env.rand b - 1/2) * (15/100),
       shell.riseY - trailOffset + (env.rand (b + 1) - 1/2) * (1/10),
       shell.z + (env.rand (b + 2) - 1/2) * (15/100))
    colors := Function.update st.colors ti
      (1 * brightness, 85/100 * brightness, 4/10 * brightness)
    sizes := Function.update st.sizes ti (TRAIL_SIZE * brightness) }

def trailUpdate (env : FwEnv) (sIdx : ℕ) (shell : ShellState) (st : FwState) : FwState :=
  (List.range TRAIL_PARTICLES_PER_SHELL).foldl
    (fun st t => trailUpdateOne env sIdx shell t st) st

/-- Hiding one trail particle when the shell bursts (lines 275-281). -/
def hideTrailOne (sIdx t : ℕ) (st : FwState) : FwState :=
  let ti := TOTAL_BURST + sIdx * TRAIL_PARTICLES_PER_SHELL + t
  { st with
    positions := Function.update st.positions ti
      ((st.positions ti).1, -100, (st.positions ti).2.2)
    sizes := Function.update st.sizes ti 0 }

def hideTrail (sIdx : ℕ) (st : FwState) : FwState :=
  (List.range TRAIL_PARTICLES_PER_SHELL).foldl (fun st t => hideTrailOne sIdx t st) st

/-- One burst particle of the burst-phase update (lines 289-335); the second
component accumulates the loop's `allDead` flag. -/
def burstUpdateOne (env : FwEnv) (delta : ℚ) (sIdx : ℕ) (shell : ShellState) (p : ℕ)
    (acc : FwState × Bool) : FwState × Bool :=
  let st := acc.1
  let i := sIdx * PARTICLES_PER_SHELL + p
  let age := st.ages i + delta
  let st := { st with ages := Function.update st.ages i age }
  let life := st.lifetimes i
  if life < age then
    ({ st with
        positions := Function.update st.positions i
          ((st.positions i).1, -100, (st.positions i).2.2)
        colors := Function.update st.colors i (0, 0, 0)
        sizes := Function.update st.sizes i 0 }, acc.2)
  else
    let b := flickerBase sIdx p
    let v0 := st.velocities i
    let v := (v0.1 * DRAG, v0.2.1 * DRAG + GRAVITY * delta, v0.2.2 * DRAG)
    let pos0 := st.positions i
    let pos := (pos0.1 + v.1 * delta, pos0.2.1 + v.2.1 * delta, pos0.2.2 + v.2.2 * delta)
    let tt := age / life
    let fade := max 0 (1 - tt * tt)
    let flicker := 85/100 + env.rand b * (15/100)
    let palette := PALETTES.getD shell.paletteIdx []
    let cIdx := min (⌊tt * (palette.length : ℚ)⌋).toNat (palette.length - 1)
    let c := palette.getD cIdx (0, 0, 0)
    ({ st with
        velocities := Function.update st.velocities i v
        positions := Function.update st.positions i pos
        colors := Function.update st.colors i
          (c.1 * fade * flicker, c.2.1 * fade * flicker, c.2.2 * fade * flicker)
        sizes := Function.update st.sizes i
          (SPARKLE_SIZE * fade * (1/2 + env.rand (b + 1) * (1/2))) }, false)

/-- The per-shell update of the `useFrame` body (lines 243-341). -/
def updateShell (env : FwEnv) (delta : ℚ) (sIdx : ℕ) (st : FwState) : FwState :=
  let shell := st.shells sIdx
  if !shell.active then st
  else match shell.phase with
  | .rising =>
      let st := trailUpdate env sIdx shell st
      let shell := { shell with riseY := shell.riseY + shell.riseVelocity * delta }
      if shell.targetY ≤ shell.riseY then
        let shell := { shell with phase := .burst, burstAge := 0 }
        let st := burstShell env sIdx shell st
        let st := hideTrail sIdx st
        { st with shells := Function.update st.shells sIdx shell }
      else
        { st with shells := Function.update st.shells sIdx shell }
  | .burst =>
      let shell := { shell with burstAge := shell.burstAge + delta }
      let r := (List.range PARTICLES_PER_SHELL).foldl
        (fun acc p => burstUpdateOne env delta sIdx shell p acc) (st, true)
      let shell := if r.2 then { shell with active := false } else shell
      { r.1 with shells := Function.update r.1.shells sIdx shell }

/-- The launch-on-a-timer scan (lines 234-239): launch the first inactive
shell, if any. -/
def launchFirstInactive (env : FwEnv) (origin : ℚ × ℚ × ℚ) (shells : ℕ → ShellState) :
    ℕ → ShellState :=
  match (List.range MAX_SHELLS).find? (fun s => !(shells s).active) with
  | none => shells
  | some s => Function.update shells s (launchShell env (launchBase s) origin)

/-- Opacity damping plus the launch timer (lines 227-240). -/
def fwLaunchStage (env : FwEnv) (origin : ℚ × ℚ × ℚ) (s : FwState) (delta : ℚ) : FwState :=
  let s := { s with burstOpacity := damp env.toHostEnv s.burstOpacity 1 3 delta
                    trailOpacity := damp env.toHostEnv s.trailOpacity (7/10) 3 delta }
  if LAUNCH_INTERVAL ≤ s.launchTimer + delta then
    { s with shells := launchFirstInactive env origin s.shells, launchTimer := 0 }
  else { s with launchTimer := s.launchTimer + delta }

/-- One execution of the `useFrame` body of `Fireworks`
(lines 201-360) with all refs mounted. -/
def fwTick (env : FwEnv) (origin : ℚ × ℚ × ℚ) (s : FwState) (isActive : Bool)
    (rawDelta : ℚ) : FwState :=
  let delta := min rawDelta (1/20)
  if !isActive then
    let s := { s with burstOpacity := damp env.toHostEnv s.burstOpacity 0 4 delta
                      trailOpacity := damp env.toHostEnv s.trailOpacity 0 4 delta }
    if s.burstOpacity < 1/100 then
      { s with shells := fun i => { s.shells i with active := false } }
    else s
  else
    (List.range MAX_SHELLS).foldl (fun st j => updateShell env delta j st)
      (fwLaunchStage env origin s delta)

/-- One step of the first-activation volley (lines 187-194): the loop runs
while fewer than 5 shells have been launched and launches into inactive
slots. -/
def volleyStep (env : FwEnv) (origin : ℚ × ℚ × ℚ) (acc : (ℕ → ShellState) × ℕ) (s : ℕ) :
    (ℕ → ShellState) × ℕ :=
  if acc.2 < 5 ∧ (acc.1 s).active = false then
    (Function.update acc.1 s (launchShell env (launchBase s) origin), acc.2 + 1)
  else acc

/-- The activation effect (lines 183-199): on the first `isActive = true`,
launch an initial volley of up to 5 shells; on `isActive = false`, rearm the
one-shot flag. -/
def fwActivate (env : FwEnv) (origin : ℚ × ℚ × ℚ) (st : FwState) (isActive : Bool) :
    FwState :=
  if isActive ∧ st.hasExplodedOnce = false then
    { st with hasExplodedOnce := true
              shells := ((List.range MAX_SHELLS).foldl (volleyStep env origin)
                (st.shells, 0)).1 }
  else if isActive = false then { st with hasExplodedOnce := false }
  else st

/-! ### Bookkeeping lemmas for the firework tick -/

lemma trailUpdateOne_fields (env : FwEnv) (sIdx : ℕ) (shell : ShellState) (t : ℕ)
    (st : FwState) :
    (trailUpdateOne env sIdx shell t st).shells = st.shells ∧
    (trailUpdateOne env sIdx shell t st).ages = st.ages ∧
    (trailUpdateOne env sIdx shell t st).lifetimes = st.lifetimes := by
  simp [trailUpdateOne]

lemma trailUpdate_fields (env : FwEnv) (sIdx : ℕ) (shell : ShellState) (st : FwState) :
    (trailUpdate env sIdx shell st).shells = st.shells ∧
    (trailUpdate env sIdx shell st).ages = st.ages ∧
    (trailUpdate env sIdx shell st).lifetimes = st.lifetimes := by
  unfold trailUpdate
  generalize List.range TRAIL_PARTICLES_PER_SHELL = L
  induction L generalizing st with
  | nil => exact ⟨rfl, rfl, rfl⟩
  | cons a as ih =>
    simp only [List.foldl_cons]
    have h1 := trailUpdateOne_fields env sIdx shell a st
    have h2 := ih (trailUpdateOne env sIdx shell a st)
    exact ⟨h2.1.trans h1.1, h2.2.1.trans h1.2.1, h2.2.2.trans h1.2.2⟩

lemma hideTrailOne_fields (sIdx t : ℕ) (st : FwState) :
    (hideTrailOne sIdx t st).shells = st.shells ∧
    (hideTrailOne sIdx t st).ages = st.ages ∧
    (hideTrailOne sIdx t st).lifetimes = st.lifetimes := by
  simp [hideTrailOne]

lemma hideTrail_fields (sIdx : ℕ) (st : FwState) :
    (hideTrail sIdx st).shells = st.shells ∧
    (hideTrail sIdx st).ages = st.ages ∧
    (hideTrail sIdx st).lifetimes = st.lifetimes := by
  unfold hideTrail
  generalize List.range TRAIL_PARTICLES_PER_SHELL = L
  induction L generalizing st with
  | nil => exact ⟨rfl, rfl, rfl⟩
  | cons a as ih =>
    simp only [List.foldl_cons]
    have h1 := hideTrailOne_fields sIdx a st
    have h2 := ih (hideTrailOne sIdx a st)
    exact ⟨h2.1.trans h1.1, h2.2.1.trans h1.2.1, h2.2.2.trans h1.2.2⟩

lemma burstSpawnOne_shells (env : FwEnv) (sIdx : ℕ) (shell : ShellState) (p : ℕ)
    (st : FwState) : (burstSpawnOne env sIdx shell p st).shells = st.shells := by
  simp [burstSpawnOne]

lemma burstSpawnOne_ages (env : FwEnv) (sIdx : ℕ) (shell : ShellState) (p j : ℕ)
    (st : FwState) :
    (burstSpawnOne env sIdx shell p st).ages j =
      if j = sIdx * PARTICLES_PER_SHELL + p then 0 else st.ages j := by
  simp [burstSpawnOne, Function.update_apply]

lemma burstSpawnOne_lifetimes (env : FwEnv) (sIdx : ℕ) (shell : ShellState) (p j : ℕ)
    (st : FwState) :
    (burstSpawnOne env sIdx shell p st).lifetimes j =
      if j = sIdx * PARTICLES_PER_SHELL + p then
        BURST_LIFETIME_MIN + env.rand (burstBase sIdx p + 5) *
          (BURST_LIFETIME_MAX - BURST_LIFETIME_MIN)
      else st.lifetimes j := by
  simp [burstSpawnOne, Function.update_apply]

lemma burstShell_shells (env : FwEnv) (sIdx : ℕ) (shell : ShellState) (st : FwState) :
    (burstShell env sIdx shell st).shells = st.shells := by
  unfold burstShell
  generalize List.range PARTICLES_PER_SHELL = L
  induction L generalizing st with
  | nil => rfl
  | cons a as ih =>
    simp only [List.foldl_cons]
    exact (ih (burstSpawnOne env sIdx shell a st)).trans (burstSpawnOne_shells env sIdx shell a st)

lemma burstShell_fold_ages_zero (env : FwEnv) (sIdx : ℕ) (shell : ShellState) :
    ∀ (n : ℕ) (st : FwState) (p : ℕ), p < n →
      (((List.range n).foldl (fun st p => burstSpawnOne env sIdx shell p st) st)).ages
        (sIdx * PARTICLES_PER_SHELL + p) = 0 := by
  intro n
  induction n with
  | zero => intro st p hp; omega
  | succ n ih =>
    intro st p hp
    rw [List.range_succ, List.foldl_append, List.foldl_cons, List.foldl_nil]
    rw [burstSpawnOne_ages]
    by_cases hpn : p = n
    · rw [if_pos (by rw [hpn])]
    · rw [if_neg (by omega)]
      exact ih st p (by omega)

lemma burstShell_fold_ages_outside (env : FwEnv) (sIdx : ℕ) (shell : ShellState) :
    ∀ (n : ℕ) (st : FwState) (j : ℕ), (∀ p, p < n → j ≠ sIdx * PARTICLES_PER_SHELL + p) →
      (((List.range n).foldl (fun st p => burstSpawnOne env sIdx shell p st) st)).ages j =
        st.ages j := by
  intro n
  induction n with
  | zero => intro st j _; rfl
  | succ n ih =>
    intro st j hj
    rw [List.range_succ, List.foldl_append, List.foldl_cons, List.foldl_nil]
    rw [burstSpawnOne_ages, if_neg (hj n (by omega))]
    exact ih st j (fun p hp => hj p (by omega))

lemma burstShell_fold_lifetimes_outside (env : FwEnv) (sIdx : ℕ) (shell : ShellState) :
    ∀ (n : ℕ) (st : FwState) (j : ℕ), (∀ p, p < n → j ≠ sIdx * PARTICLES_PER_SHELL + p) →
      (((List.range n).foldl (fun st p => burstSpawnOne env sIdx shell p st) st)).lifetimes j =
        st.lifetimes j := by
  intro n
  induction n with
  | zero => intro st j _; rfl
  | succ n ih =>
    intro st j hj
    rw [List.range_succ, List.foldl_append, List.foldl_cons, List.foldl_nil]
    rw [burstSpawnOne_lifetimes, if_neg (hj n (by omega))]
    exact ih st j (fun p hp => hj p (by omega))

lemma burstShell_ages_zero (env : FwEnv) (sIdx : ℕ) (shell : ShellState) (st : FwState)
    (p : ℕ) (hp : p < PARTICLES_PER_SHELL) :
    (burstShell env sIdx shell st).ages (sIdx * PARTICLES_PER_SHELL + p) = 0 :=
  burstShell_fold_ages_zero env sIdx shell PARTICLES_PER_SHELL st p hp

lemma burstShell_ages_outside (env : FwEnv) (sIdx : ℕ) (shell : ShellState) (st : FwState)
    (j : ℕ) (hj : ∀ p, p < PARTICLES_PER_SHELL → j ≠ sIdx * PARTICLES_PER_SHELL + p) :
    (burstShell env sIdx shell st).ages j = st.ages j :=
  burstShell_fold_ages_outside env sIdx shell PARTICLES_PER_SHELL st j hj

lemma burstShell_lifetimes_outside (env : FwEnv) (sIdx : ℕ) (shell : ShellState)
    (st : FwState) (j : ℕ)
    (hj : ∀ p, p < PARTICLES_PER_SHELL → j ≠ sIdx * PARTICLES_PER_SHELL + p) :
    (burstShell env sIdx shell st).lifetimes j = st.lifetimes j :=
  burstShell_fold_lifetimes_outside env sIdx shell PARTICLES_PER_SHELL st j hj

lemma burstUpdateOne_fst (env : FwEnv) (delta : ℚ) (sIdx : ℕ) (shell : ShellState) (p : ℕ)
    (acc : FwState × Bool) :
    (burstUpdateOne env delta sIdx shell p acc).1.shells = acc.1.shells ∧
    (burstUpdateOne env delta sIdx shell p acc).1.lifetimes = acc.1.lifetimes ∧
    (∀ j, (burstUpdateOne env delta sIdx shell p acc).1.ages j =
      if j = sIdx * PARTICLES_PER_SHELL + p then
        acc.1.ages (sIdx * PARTICLES_PER_SHELL + p) + delta
      else acc.1.ages j) := by
  simp only [burstUpdateOne]
  split
  · exact ⟨rfl, rfl, fun j => by simp [Function.update_apply]⟩
  · exact ⟨rfl, rfl, fun j => by simp [Function.update_apply]⟩

lemma burstUpdateOne_snd (env : FwEnv) (delta : ℚ) (sIdx : ℕ) (shell : ShellState) (p : ℕ)
    (acc : FwState × Bool) :
    (burstUpdateOne env delta sIdx shell p acc).2 =
      if acc.1.lifetimes (sIdx * PARTICLES_PER_SHELL + p) <
          acc.1.ages (sIdx * PARTICLES_PER_SHELL + p) + delta then acc.2
      else false := by
  simp only [burstUpdateOne, Function.update_same]
  split <;> rfl

lemma burstUpdate_fold_fst (env : FwEnv) (delta : ℚ) (sIdx : ℕ) (shell : ShellState) :
    ∀ (L : List ℕ) (acc : FwState × Bool),
      ((L.foldl (fun a p => burstUpdateOne env delta sIdx shell p a) acc)).1.shells =
        acc.1.shells ∧
      ((L.foldl (fun a p => burstUpdateOne env delta sIdx shell p a) acc)).1.lifetimes =
        acc.1.lifetimes ∧
      (∀ j, (∀ p ∈ L, j ≠ sIdx * PARTICLES_PER_SHELL + p) →
        ((L.foldl (fun a p => burstUpdateOne env delta sIdx shell p a) acc)).1.ages j =
          acc.1.ages j) := by
  intro L
  induction L with
  | nil => exact fun acc => ⟨rfl, rfl, fun j _ => rfl⟩
  | cons a as ih =>
    intro acc
    simp only [List.foldl_cons]
    have h1 := burstUpdateOne_fst env delta sIdx shell a acc
    have h2 := ih (burstUpdateOne env delta sIdx shell a acc)
    refine ⟨h2.1.trans h1.1, h2.2.1.trans h1.2.1, ?_⟩
    intro j hj
    rw [h2.2.2 j (fun p hp => hj p (List.mem_cons_of_mem _ hp)), h1.2.2 j,
      if_neg (hj a (List.mem_cons_self _ _))]

lemma burstUpdate_fold_allDead (env : FwEnv) (delta : ℚ) (sIdx : ℕ) (shell : ShellState) :
    ∀ (L : List ℕ) (acc : FwState × Bool), L.Nodup →
      (∀ q ∈ L, acc.1.lifetimes (sIdx * PARTICLES_PER_SHELL + q) <
        acc.1.ages (sIdx * PARTICLES_PER_SHELL + q) + delta) →
      acc.2 = true →
      (L.foldl (fun a p => burstUpdateOne env delta sIdx shell p a) acc).2 = true := by
  intro L
  induction L with
  | nil => exact fun acc _ _ h => h
  | cons a as ih =>
    intro acc hnd hlt htrue
    simp only [List.foldl_cons]
    have h1 := burstUpdateOne_fst env delta sIdx shell a acc
    apply ih _ (List.Nodup.of_cons hnd)
    · intro q hq
      have hne : sIdx * PARTICLES_PER_SHELL + q ≠ sIdx * PARTICLES_PER_SHELL + a := by
        have : a ∉ as := (List.nodup_cons.mp hnd).1
        have : q ≠ a := fun hqa => this (hqa ▸ hq)
        omega
      rw [h1.2.1, h1.2.2, if_neg hne]
      exact hlt q (List.mem_cons_of_mem _ hq)
    · rw [burstUpdateOne_snd, if_pos (hlt a (List.mem_cons_self _ _)), htrue]

/-! Per-iteration preservation of another shell's state and burst slice. -/

lemma updateShell_preserves (env : FwEnv) (delta : ℚ) (j : ℕ) (st : FwState) (i : ℕ)
    (hij : i ≠ j) :
    (updateShell env delta j st).shells i = st.shells i ∧
    (∀ q, q < PARTICLES_PER_SHELL →
      (updateShell env delta j st).ages (i * PARTICLES_PER_SHELL + q) =
        st.ages (i * PARTICLES_PER_SHELL + q) ∧
      (updateShell env delta j st).lifetimes (i * PARTICLES_PER_SHELL + q) =
        st.lifetimes (i * PARTICLES_PER_SHELL + q)) := by
  have hidx : ∀ q p, q < PARTICLES_PER_SHELL → p < PARTICLES_PER_SHELL →
      i * PARTICLES_PER_SHELL + q ≠ j * PARTICLES_PER_SHELL + p := by
    intro q p hq hp
    simp only [PARTICLES_PER_SHELL] at *
    omega
  simp only [updateShell]
  split
  · exact ⟨rfl, fun q _ => ⟨rfl, rfl⟩⟩
  · split
    · -- rising
      split
      · -- bursts this tick
        constructor
        · dsimp only
          rw [Function.update_noteq hij, (hideTrail_fields _ _).1, burstShell_shells,
            (trailUpdate_fields _ _ _ _).1]
        · intro q hq
          constructor
          · dsimp only
            rw [(hideTrail_fields _ _).2.1,
              burstShell_ages_outside _ _ _ _ _ (fun p hp => hidx q p hq hp),
              (trailUpdate_fields _ _ _ _).2.1]
          · dsimp only
            rw [(hideTrail_fields _ _).2.2,
              burstShell_lifetimes_outside _ _ _ _ _ (fun p hp => hidx q p hq hp),
              (trailUpdate_fields _ _ _ _).2.2]
      · constructor
        · dsimp only
          rw [Function.update_noteq hij, (trailUpdate_fields _ _ _ _).1]
        · intro q hq
          constructor
          · dsimp only
            rw [(trailUpdate_fields _ _ _ _).2.1]
          · dsimp only
            rw [(trailUpdate_fields _ _ _ _).2.2]
    · -- burst phase
      constructor
      · dsimp only
        rw [Function.update_noteq hij, (burstUpdate_fold_fst _ _ _ _ _ _).1]
      · intro q hq
        constructor
        · dsimp only
          exact (burstUpdate_fold_fst _ _ _ _ _ _).2.2 _
            (fun p hp => hidx q p hq (List.mem_range.mp hp))
        · dsimp only
          rw [(burstUpdate_fold_fst _ _ _ _ _ _).2.1]

lemma updateShell_no_activate (env : FwEnv) (delta : ℚ) (j : ℕ) (st : FwState) (i : ℕ)
    (h : (st.shells i).active = false) :
    ((updateShell env delta j st).shells i).active = false := by
  by_cases hij : i = j
  · subst hij
    simp only [updateShell, h]
    norm_num
    exact h
  · rw [(updateShell_preserves env delta j st i hij).1]
    exact h

/-- Folding the per-shell update over a list avoiding `i` preserves shell `i`
and its burst slice. -/
lemma fwFold_pres (env : FwEnv) (delta : ℚ) (i : ℕ) :
    ∀ (L : List ℕ), i ∉ L → ∀ (st : FwState),
      ((L.foldl (fun st j => updateShell env delta j st) st).shells i = st.shells i) ∧
      (∀ q, q < PARTICLES_PER_SHELL →
        (L.foldl (fun st j => updateShell env delta j st) st).ages
          (i * PARTICLES_PER_SHELL + q) = st.ages (i * PARTICLES_PER_SHELL + q) ∧
        (L.foldl (fun st j => updateShell env delta j st) st).lifetimes
          (i * PARTICLES_PER_SHELL + q) = st.lifetimes (i * PARTICLES_PER_SHELL + q)) := by
  intro L
  induction L with
  | nil => exact fun _ st => ⟨rfl, fun q _ => ⟨rfl, rfl⟩⟩
  | cons a as ih =>
    intro hni st
    have hia : i ≠ a := fun hia => hni (hia ▸ List.mem_cons_self _ _)
    have hstep := updateShell_preserves env delta a st i hia
    have hrest := ih (fun hmem => hni (List.mem_cons_of_mem _ hmem)) (updateShell env delta a st)
    simp only [List.foldl_cons]
    refine ⟨hrest.1.trans hstep.1, fun q hq => ?_⟩
    exact ⟨(hrest.2 q hq).1.trans (hstep.2 q hq).1, (hrest.2 q hq).2.trans (hstep.2 q hq).2⟩

/-- The per-shell update fold never activates a shell. -/
lemma fwFold_no_activate (env : FwEnv) (delta : ℚ) :
    ∀ (L : List ℕ) (st : FwState) (i : ℕ), (st.shells i).active = false →
      ((L.foldl (fun st j => updateShell env delta j st) st).shells i).active = false := by
  intro L
  induction L with
  | nil => exact fun st i h => h
  | cons a as ih =>
    intro st i h
    simp only [List.foldl_cons]
    exact ih _ i (updateShell_no_activate env delta a st i h)

/-- Splitting `range n` at an element `i < n`: everything before is `< i`,
everything after is `> i`. -/
lemma range_split (n i : ℕ) (h : i < n) :
    List.range n = List.range i ++ i :: ((List.range (n - i - 1)).map fun x => i + (1 + x)) := by
  have h1 : n = i + (n - i) := by omega
  have h2 : n - i = 1 + (n - i - 1) := by omega
  have hr1 : List.range 1 = [0] := by decide
  conv_lhs => rw [h1, List.range_add, h2, List.range_add]
  simp [hr1, List.map_map, Function.comp_def]

/-- The launch stage: ages, lifetimes and any active shell are untouched. -/
lemma fwLaunchStage_fields (env : FwEnv) (origin : ℚ × ℚ × ℚ) (s : FwState) (delta : ℚ) :
    (fwLaunchStage env origin s delta).ages = s.ages ∧
    (fwLaunchStage env origin s delta).lifetimes = s.lifetimes ∧
    (fwLaunchStage env origin s delta).shells =
      (if LAUNCH_INTERVAL ≤ s.launchTimer + delta then
        launchFirstInactive env origin s.shells else s.shells) := by
  simp only [fwLaunchStage]
  split <;> simp_all

/-- The timer launch preserves any active shell. -/
lemma launchFirstInactive_preserves_active (env : FwEnv) (origin : ℚ × ℚ × ℚ)
    (shells : ℕ → ShellState) (i : ℕ) (h : (shells i).active = true) :
    launchFirstInactive env origin shells i = shells i := by
  unfold launchFirstInactive
  cases hf : (List.range MAX_SHELLS).find? (fun s => !(shells s).active) with
  | none => rfl
  | some k =>
    have hk := List.find?_some hf
    have hki : k ≠ i := by
      intro hki
      rw [hki] at hk
      simp [h] at hk
    exact Function.update_noteq (fun hik => hki hik.symm) _ _

/-- The timer launch changes at most the single slot found by the scan. -/
lemma launchFirstInactive_unique (env : FwEnv) (origin : ℚ × ℚ × ℚ)
    (shells : ℕ → ShellState) (i j : ℕ)
    (hi : launchFirstInactive env origin shells i ≠ shells i)
    (hj : launchFirstInactive env origin shells j ≠ shells j) : i = j := by
  unfold launchFirstInactive at hi hj
  cases hf : (List.range MAX_SHELLS).find? (fun s => !(shells s).active) with
  | none => rw [hf] at hi; exact absurd rfl hi
  | some k =>
    rw [hf] at hi hj
    have hik : i = k := by
      by_contra hik
      exact hi (Function.update_noteq hik _ _)
    have hjk : j = k := by
      by_contra hjk
      exact hj (Function.update_noteq hjk _ _)
    rw [hik, hjk]

/-- When every shell is active, a due launch is skipped without changing any
shell's state. -/
lemma launchFirstInactive_all_active (env : FwEnv) (origin : ℚ × ℚ × ℚ)
    (shells : ℕ → ShellState) (h : ∀ i, i < MAX_SHELLS → (shells i).active = true) :
    launchFirstInactive env origin shells = shells := by
  unfold launchFirstInactive
  rw [List.find?_eq_none.mpr]
  intro x hx
  simp [h x (List.mem_range.mp hx)]

/-- A rising shell whose integrated rise reaches its apex bursts during its
own update: phase flips to `burst`, the shell stays active, and all 80 owned
burst particles get `age = 0`. -/
lemma updateShell_at_rising_burst (env : FwEnv) (delta : ℚ) (i : ℕ) (st : FwState)
    (ha : (st.shells i).active = true) (hph : (st.shells i).phase = .rising)
    (hEnough : (st.shells i).targetY ≤
      (st.shells i).riseY + (st.shells i).riseVelocity * delta) :
    ((updateShell env delta i st).shells i).active = true ∧
    ((updateShell env delta i st).shells i).phase = .burst ∧
    (∀ q, q < PARTICLES_PER_SHELL →
      (updateShell env delta i st).ages (i * PARTICLES_PER_SHELL + q) = 0) := by
  simp only [updateShell, ha, hph]
  rw [if_neg (by simp)]
  rw [if_pos hEnough]
  dsimp only
  refine ⟨?_, ?_, ?_⟩
  · rw [Function.update_same]
  · rw [Function.update_same]
  · intro q hq
    rw [(hideTrail_fields _ _).2.1, burstShell_ages_zero _ _ _ _ q hq]

/-- A bursting shell all of whose owned particles are past their lifetime
after this tick's ageing becomes inactive during its own update. -/
lemma updateShell_at_burst_dead (env : FwEnv) (delta : ℚ) (i : ℕ) (st : FwState)
    (ha : (st.shells i).active = true) (hph : (st.shells i).phase = .burst)
    (hdead : ∀ q, q < PARTICLES_PER_SHELL →
      st.lifetimes (i * PARTICLES_PER_SHELL + q) <
        st.ages (i * PARTICLES_PER_SHELL + q) + delta) :
    ((updateShell env delta i st).shells i).active = false := by
  simp only [updateShell, ha, hph]
  rw [if_neg (by simp)]
  dsimp only
  rw [burstUpdate_fold_allDead env delta i _ (List.range PARTICLES_PER_SHELL) (st, true)
    (List.nodup_range _) (fun q hq => hdead q (List.mem_range.mp hq)) rfl]
  rw [if_pos rfl]
  rw [Function.update_same]

/-- Processing the whole shell loop acts on shell `i` exactly as one
`updateShell` applied to an intermediate state agreeing with the input on
shell `i` and its burst slice. -/
lemma fwFold_at (env : FwEnv) (delta : ℚ) (i : ℕ) (hi : i < MAX_SHELLS) (st : FwState) :
    ∃ stMid : FwState,
      stMid.shells i = st.shells i ∧
      (∀ q, q < PARTICLES_PER_SHELL →
        stMid.ages (i * PARTICLES_PER_SHELL + q) = st.ages (i * PARTICLES_PER_SHELL + q) ∧
        stMid.lifetimes (i * PARTICLES_PER_SHELL + q) =
          st.lifetimes (i * PARTICLES_PER_SHELL + q)) ∧
      ((List.range MAX_SHELLS).foldl (fun st j => updateShell env delta j st) st).shells i =
        (updateShell env delta i stMid).shells i ∧
      (∀ q, q < PARTICLES_PER_SHELL →
        ((List.range MAX_SHELLS).foldl (fun st j => updateShell env delta j st) st).ages
          (i * PARTICLES_PER_SHELL + q) =
        (updateShell env delta i stMid).ages (i * PARTICLES_PER_SHELL + q)) := by
  rw [range_split MAX_SHELLS i hi, List.foldl_append, List.foldl_cons]
  have hiA : i ∉ List.range i := by simp
  have hiB : i ∉ (List.range (MAX_SHELLS - i - 1)).map fun x => i + (1 + x) := by
    simp only [List.mem_map, not_exists]
    intro x ⟨_, hx⟩
    omega
  have hA := fwFold_pres env delta i (List.range i) hiA st
  have hB := fwFold_pres env delta i _ hiB
    (updateShell env delta i ((List.range i).foldl (fun st j => updateShell env delta j st) st))
  refine ⟨(List.range i).foldl (fun st j => updateShell env delta j st) st,
    hA.1, fun q hq => hA.2 q hq, hB.1, fun q hq => (hB.2 q hq).1⟩

lemma fwTick_true_eq (env : FwEnv) (origin : ℚ × ℚ × ℚ) (s : FwState) (raw : ℚ) :
    fwTick env origin s true raw =
      (List.range MAX_SHELLS).foldl (fun st j => updateShell env (min raw (1/20)) j st)
        (fwLaunchStage env origin s (min raw (1/20))) := by
  simp [fwTick]

/-- C4: during an active tick, an active Rising shell whose integrated rise
reaches its apex bursts in that same tick — it stays active, its phase
becomes Bursting, and all `PARTICLES_PER_SHELL` owned burst particles are
spawned with `age = 0`; and an active Bursting shell all of whose owned
particles are already past their lifetime becomes inactive in that tick
(thereby eligible for relaunch, which scans for `active = false`). -/
theorem c4_shell_burst_transition_and_expiry (env : FwEnv) (origin : ℚ × ℚ × ℚ)
    (s : FwState) (raw : ℚ) (i : ℕ) (hi : i < MAX_SHELLS) :
    ((s.shells i).active = true → (s.shells i).phase = .rising →
      (s.shells i).targetY ≤
        (s.shells i).riseY + (s.shells i).riseVelocity * min raw (1/20) →
      ((fwTick env origin s true raw).shells i).active = true ∧
      ((fwTick env origin s true raw).shells i).phase = .burst ∧
      (∀ q, q < PARTICLES_PER_SHELL →
        (fwTick env origin s true raw).ages (i * PARTICLES_PER_SHELL + q) = 0)) ∧
    ((s.shells i).active = true → (s.shells i).phase = .burst → 0 ≤ raw →
      (∀ q, q < PARTICLES_PER_SHELL →
        s.lifetimes (i * PARTICLES_PER_SHELL + q) < s.ages (i * PARTICLES_PER_SHELL + q)) →
      ((fwTick env origin s true raw).shells i).active = false) := by
  have hLS := fwLaunchStage_fields env origin s (min raw (1/20))
  constructor
  · intro ha hph hEnough
    have hs2i : (fwLaunchStage env origin s (min raw (1/20))).shells i = s.shells i := by
      rw [hLS.2.2]
      split
      · exact launchFirstInactive_preserves_active env origin s.shells i ha
      · rfl
    obtain ⟨stMid, hm1, hm2, hm3, hm4⟩ :=
      fwFold_at env (min raw (1/20)) i hi (fwLaunchStage env origin s (min raw (1/20)))
    have hmid_shell : stMid.shells i = s.shells i := hm1.trans hs2i
    have hstep := updateShell_at_rising_burst env (min raw (1/20)) i stMid
      (by rw [hmid_shell]; exact ha) (by rw [hmid_shell]; exact hph)
      (by rw [hmid_shell]; exact hEnough)
    rw [fwTick_true_eq]
    exact ⟨by rw [hm3]; exact hstep.1, by rw [hm3]; exact hstep.2.1,
      fun q hq => by rw [hm4 q hq]; exact hstep.2.2 q hq⟩
  · intro ha hph hraw hdead
    have hdelta : 0 ≤ min raw (1/20) := le_min hraw (by norm_num)
    have hs2i : (fwLaunchStage env origin s (min raw (1/20))).shells i = s.shells i := by
      rw [hLS.2.2]
      split
      · exact launchFirstInactive_preserves_active env origin s.shells i ha
      · rfl
    obtain ⟨stMid, hm1, hm2, hm3, hm4⟩ :=
      fwFold_at env (min raw (1/20)) i hi (fwLaunchStage env origin s (min raw (1/20)))
    have hmid_shell : stMid.shells i = s.shells i := hm1.trans hs2i
    have hstep := updateShell_at_burst_dead env (min raw (1/20)) i stMid
      (by rw [hmid_shell]; exact ha) (by rw [hmid_shell]; exact hph)
      (by
        intro q hq
        have hages : stMid.ages (i * PARTICLES_PER_SHELL + q) =
            s.ages (i * PARTICLES_PER_SHELL + q) := by
          rw [(hm2 q hq).1]
          have : (fwLaunchStage env origin s (min raw (1/20))).ages = s.ages := hLS.1
          rw [this]
        have hlifes : stMid.lifetimes (i * PARTICLES_PER_SHELL + q) =
            s.lifetimes (i * PARTICLES_PER_SHELL + q) := by
          rw [(hm2 q hq).2]
          have : (fwLaunchStage env origin s (min raw (1/20))).lifetimes = s.lifetimes :=
            hLS.2.1
          rw [this]
        rw [hages, hlifes]
        linarith [hdead q hq])
    rw [fwTick_true_eq]
    rw [hm3]
    exact hstep

/-- A zero-valued host oracle, for witnesses. -/
def fwEnvZero : FwEnv :=
  { rand := fun _ => 0, sinq := fun _ => 0, expn := fun _ => 0, nowMs := 0
    burstDirAt := fun _ => (0, 0, 0) }

/-- A shell sitting exactly at its apex, in the given phase. -/
def c4Shell (ph : FwPhase) : ShellState :=
  { active := true, phase := ph, x := 0, z := 0, riseY := 6, riseVelocity := 6
    targetY := 6, burstAge := 0, paletteIdx := 0 }

/-- A pool with shell 0 rising exactly at its apex. -/
def c4RisingState : FwState :=
  { fwInit with shells := Function.update fwInit.shells 0 (c4Shell .rising) }

/-- A pool with shell 0 bursting while every pooled particle is long expired
(`age = 999 > 1 = lifetime` from construction). -/
def c4BurstState : FwState :=
  { fwInit with shells := Function.update fwInit.shells 0 (c4Shell .burst) }

/-- Witness for C4: shell 0 of `c4RisingState` bursts during an active tick
with raw delta `1`, and shell 0 of `c4BurstState` deactivates. -/
theorem c4_shell_burst_transition_and_expiry_witness :
    ((c4RisingState.shells 0).active = true ∧ (c4RisingState.shells 0).phase = .rising ∧
      (c4RisingState.shells 0).targetY ≤
        (c4RisingState.shells 0).riseY + (c4RisingState.shells 0).riseVelocity * min 1 (1/20)) ∧
    (((fwTick fwEnvZero (0, 0, 0) c4RisingState true 1).shells 0).active = true ∧
      ((fwTick fwEnvZero (0, 0, 0) c4RisingState true 1).shells 0).phase = .burst ∧
      (∀ q, q < PARTICLES_PER_SHELL →
        (fwTick fwEnvZero (0, 0, 0) c4RisingState true 1).ages
          (0 * PARTICLES_PER_SHELL + q) = 0)) ∧
    ((c4BurstState.shells 0).active = true ∧ (c4BurstState.shells 0).phase = .burst ∧
      (∀ q, q < PARTICLES_PER_SHELL →
        c4BurstState.lifetimes (0 * PARTICLES_PER_SHELL + q) <
          c4BurstState.ages (0 * PARTICLES_PER_SHELL + q))) ∧
    ((fwTick fwEnvZero (0, 0, 0) c4BurstState true 1).shells 0).active = false := by
  have h1 : (c4RisingState.shells 0).active = true := rfl
  have h2 : (c4RisingState.shells 0).phase = .rising := rfl
  have h3 : (c4RisingState.shells 0).targetY ≤
      (c4RisingState.shells 0).riseY + (c4RisingState.shells 0).riseVelocity * min 1 (1/20) := by
    show (6:ℚ) ≤ 6 + 6 * min 1 (1/20)
    norm_num [min_def]
  have b1 : (c4BurstState.shells 0).active = true := rfl
  have b2 : (c4BurstState.shells 0).phase = .burst := rfl
  have b4 : ∀ q, q < PARTICLES_PER_SHELL →
      c4BurstState.lifetimes (0 * PARTICLES_PER_SHELL + q) <
        c4BurstState.ages (0 * PARTICLES_PER_SHELL + q) := by
    intro q hq
    show (1:ℚ) < 999
    norm_num
  have hi : 0 < MAX_SHELLS := by norm_num [MAX_SHELLS]
  exact ⟨⟨h1, h2, h3⟩,
    (c4_shell_burst_transition_and_expiry fwEnvZero (0, 0, 0) c4RisingState 1 0 hi).1 h1 h2 h3,
    ⟨b1, b2, b4⟩,
    (c4_shell_burst_transition_and_expiry fwEnvZero (0, 0, 0) c4BurstState 1 0 hi).2 b1 b2
      (by norm_num) b4⟩

/-- Evaluating the first-activation volley from an all-inactive pool: the
first `min n 5` slots get launched. -/
lemma volley_fold_eval (env : FwEnv) (origin : ℚ × ℚ × ℚ) : ∀ n : ℕ,
    (List.range n).foldl (volleyStep env origin) ((fun _ => initShell), 0) =
      ((fun i => if i < min n 5 then launchShell env (launchBase i) origin else initShell),
        min n 5) := by
  intro n
  induction n with
  | zero =>
    simp only [List.range_zero, List.foldl_nil, Nat.zero_min]
    refine Prod.ext ?_ rfl
    funext i
    simp
  | succ n ih =>
    rw [List.range_succ, List.foldl_append, List.foldl_cons, List.foldl_nil, ih]
    by_cases h5 : n < 5
    · have hmn : min n 5 = n := by omega
      have hmn1 : min (n + 1) 5 = n + 1 := by omega
      rw [hmn, hmn1]
      simp only [volleyStep]
      rw [if_pos ⟨h5, by simp [initShell]⟩]
      refine Prod.ext ?_ rfl
      funext i
      dsimp only
      by_cases hin : i = n
      · subst hin
        rw [Function.update_same, if_pos (by omega)]
      · rw [Function.update_noteq hin]
        by_cases hilt : i < n
        · rw [if_pos hilt, if_pos (by omega)]
        · rw [if_neg hilt, if_neg (by omega)]
    · have hmn : min n 5 = 5 := by omega
      have hmn1 : min (n + 1) 5 = 5 := by omega
      rw [hmn, hmn1]
      simp [volleyStep]

lemma updateShell_rising_active (env : FwEnv) (delta : ℚ) (i : ℕ) (st : FwState)
    (ha : (st.shells i).active = true) (hph : (st.shells i).phase = .rising) :
    ((updateShell env delta i st).shells i).active = true := by
  simp only [updateShell, ha, hph]
  rw [if_neg (by simp)]
  split
  · dsimp only
    rw [Function.update_same]
  · dsimp only
    rw [Function.update_same]

/-- C5: (1) the first activation launches exactly 5 shells, all Rising, from
the fresh pool; (2) with an undue launch timer no inactive shell activates
during a tick; (3) no tick activates two distinct shells — at most one shell
is launched per due timer; (4) with every shell active, the due-timer launch
scan changes nothing (and raises no error — it is a total function). -/
theorem c5_initial_volley_and_launch_policy (env : FwEnv) (origin : ℚ × ℚ × ℚ)
    (s : FwState) (raw : ℚ) :
    (∀ i, (i < 5 → ((fwActivate env origin fwInit true).shells i).active = true ∧
                    ((fwActivate env origin fwInit true).shells i).phase = .rising) ∧
          (5 ≤ i → ((fwActivate env origin fwInit true).shells i).active = false)) ∧
    (¬ (LAUNCH_INTERVAL ≤ s.launchTimer + min raw (1/20)) →
      ∀ i, (s.shells i).active = false →
        ((fwTick env origin s true raw).shells i).active = false) ∧
    (∀ i j, i ≠ j →
      ¬(((s.shells i).active = false ∧
          ((fwTick env origin s true raw).shells i).active = true) ∧
        ((s.shells j).active = false ∧
          ((fwTick env origin s true raw).shells j).active = true))) ∧
    ((∀ i, i < MAX_SHELLS → (s.shells i).active = true) →
      launchFirstInactive env origin s.shells = s.shells) := by
  have hLS := fwLaunchStage_fields env origin s (min raw (1/20))
  refine ⟨?_, ?_, ?_, ?_⟩
  · -- initial volley
    intro i
    have hact : fwActivate env origin fwInit true =
        { fwInit with hasExplodedOnce := true
                      shells := ((List.range MAX_SHELLS).foldl (volleyStep env origin)
                        (fwInit.shells, 0)).1 } := by
      unfold fwActivate
      rw [if_pos ⟨rfl, rfl⟩]
    have hshells : fwInit.shells = fun _ => initShell := rfl
    rw [hact]
    dsimp only
    rw [hshells, volley_fold_eval env origin MAX_SHELLS]
    have hmin : min MAX_SHELLS 5 = 5 := by norm_num [MAX_SHELLS]
    dsimp only
    rw [hmin]
    constructor
    · intro hi5
      rw [if_pos hi5]
      exact ⟨rfl, rfl⟩
    · intro hi5
      rw [if_neg (by omega)]
      rfl
  · -- undue timer: nothing activates
    intro hnot i hinact
    rw [fwTick_true_eq]
    apply fwFold_no_activate
    rw [hLS.2.2, if_neg hnot]
    exact hinact
  · -- at most one activation per tick
    intro i j hne ⟨⟨hi0, hi1⟩, ⟨hj0, hj1⟩⟩
    rw [fwTick_true_eq] at hi1 hj1
    by_cases hdue : LAUNCH_INTERVAL ≤ s.launchTimer + min raw (1/20)
    · have hsh : (fwLaunchStage env origin s (min raw (1/20))).shells =
          launchFirstInactive env origin s.shells := by
        rw [hLS.2.2, if_pos hdue]
      have hchi : launchFirstInactive env origin s.shells i ≠ s.shells i := by
        intro heq
        have : ((((List.range MAX_SHELLS)).foldl
            (fun st j => updateShell env (min raw (1/20)) j st)
            (fwLaunchStage env origin s (min raw (1/20)))).shells i).active = false := by
          apply fwFold_no_activate
          rw [hsh, heq]
          exact hi0
        rw [hi1] at this
        cases this
      have hchj : launchFirstInactive env origin s.shells j ≠ s.shells j := by
        intro heq
        have : ((((List.range MAX_SHELLS)).foldl
            (fun st j => updateShell env (min raw (1/20)) j st)
            (fwLaunchStage env origin s (min raw (1/20)))).shells j).active = false := by
          apply fwFold_no_activate
          rw [hsh, heq]
          exact hj0
        rw [hj1] at this
        cases this
      exact hne (launchFirstInactive_unique env origin s.shells i j hchi hchj)
    · have : ((((List.range MAX_SHELLS)).foldl
          (fun st j => updateShell env (min raw (1/20)) j st)
          (fwLaunchStage env origin s (min raw (1/20)))).shells i).active = false := by
        apply fwFold_no_activate
        rw [hLS.2.2, if_neg hdue]
        exact hi0
      rw [hi1] at this
      cases this
  · -- all shells active: the launch is a no-op
    exact launchFirstInactive_all_active env origin s.shells

/-- A pool with every shell active. -/
def c5AllActiveState : FwState := { fwInit with shells := fun _ => c4Shell .rising }

/-- Witness for C5 at a zero oracle: the volley facts at slots `0` and `7`,
the undue-timer case on the fresh pool, uniqueness at slots `0 ≠ 1`, and the
all-active skip. -/
theorem c5_initial_volley_and_launch_policy_witness :
    (((fwActivate fwEnvZero (0, 0, 0) fwInit true).shells 0).active = true ∧
      ((fwActivate fwEnvZero (0, 0, 0) fwInit true).shells 0).phase = .rising) ∧
    ((fwActivate fwEnvZero (0, 0, 0) fwInit true).shells 7).active = false ∧
    ((fwInit.shells 3).active = false →
      ((fwTick fwEnvZero (0, 0, 0) fwInit true 0).shells 3).active = false) ∧
    ¬(((fwInit.shells 0).active = false ∧
        ((fwTick fwEnvZero (0, 0, 0) fwInit true 0).shells 0).active = true) ∧
      ((fwInit.shells 1).active = false ∧
        ((fwTick fwEnvZero (0, 0, 0) fwInit true 0).shells 1).active = true)) ∧
    launchFirstInactive fwEnvZero (0, 0, 0) c5AllActiveState.shells = c5AllActiveState.shells := by
  have h1 := (c5_initial_volley_and_launch_policy fwEnvZero (0, 0, 0) fwInit 0).1
  have h2 := (c5_initial_volley_and_launch_policy fwEnvZero (0, 0, 0) fwInit 0).2.1
  have h3 := (c5_initial_volley_and_launch_policy fwEnvZero (0, 0, 0) fwInit 0).2.2.1
  have h4 := (c5_initial_volley_and_launch_policy fwEnvZero (0, 0, 0) c5AllActiveState 0).2.2.2
  refine ⟨(h1 0).1 (by norm_num), (h1 7).2 (by norm_num), ?_, h3 0 1 (by norm_num), ?_⟩
  · intro h
    exact h2 (by norm_num [LAUNCH_INTERVAL, min_def, fwInit]) 3 h
  · exact h4 (fun i _ => rfl)

/-! ### C7: frame-delta clamping across the per-frame integrators -/

/-- `src/unnamed/part_000` line 209 (`Fireworks.useFrame`):
`const delta = Math.min(rawDelta, 0.05)`. -/
def fireworksStepDelta (rawDelta : ℚ) : ℚ := min rawDelta (1/20)

/-- `src/src/App.tsx` line 798 (`FallingSparkles.useFrame`):
`const delta = Math.min(rawDelta, 0.05)`. -/
def sparklesStepDelta (rawDelta : ℚ) : ℚ := min rawDelta (1/20)

/-- `src/src/models/pictureFrame.tsx` lines 209-222 (and equally
`bouquet.tsx` lines 130-131): the prop pose-smoothing `useFrame` body consumes
its raw `delta` argument directly (`1 - Math.exp(-delta * 12)`,
`1 - Math.exp(-delta * 10)`); no `Math.min` clamp is applied in that
handler. -/
def pictureFrameStepDelta (rawDelta : ℚ) : ℚ := rawDelta

/-- Counterexample to C7 as stated: at raw delta `0.1` (a 100 ms hitch), the
firework and sparkle integrators consume the clamped `0.05`, but the prop
pose smoothing consumes the unclamped `0.1 > 0.05`. -/
theorem c7_frame_delta_counterexample : (0:ℚ) ≤ 1/10 ∧
    ¬(fireworksStepDelta (1/10) ≤ 1/20 ∧ sparklesStepDelta (1/10) ≤ 1/20 ∧
      pictureFrameStepDelta (1/10) ≤ 1/20) := by
  norm_num [fireworksStepDelta, sparklesStepDelta, pictureFrameStepDelta, min_def]

/-- C7 as corrected: the firework and ambient-sparkle integrators clamp every
raw frame delta to at most `0.05 s` before use (and their ticks indeed consume
exactly the clamped value), while the interactive-prop pose smoothing consumes
the raw delta unclamped. -/
theorem c7_frame_delta_clamping (raw : ℚ) :
    fireworksStepDelta raw ≤ 1/20 ∧ sparklesStepDelta raw ≤ 1/20 ∧
    pictureFrameStepDelta raw = raw ∧
    (∀ (env : FwEnv) (origin : ℚ × ℚ × ℚ) (s : FwState) (act : Bool),
      fwTick env origin s act raw = fwTick env origin s act (fireworksStepDelta raw)) ∧
    (∀ (env : HostEnv) (s : SparkleState) (act : Bool),
      sparkleTick env s act raw = sparkleTick env s act (sparklesStepDelta raw)) := by
  refine ⟨min_le_right _ _, min_le_right _ _, rfl, ?_, ?_⟩
  · intro env origin s act
    simp only [fwTick, fireworksStepDelta, min_assoc, min_self]
  · intro env s act
    simp only [sparkleTick, sparklesStepDelta, min_assoc, min_self]

/-- Witness for the corrected C7 at raw delta `0.1`. -/
theorem c7_frame_delta_clamping_witness :
    fireworksStepDelta (1/10) ≤ 1/20 ∧ sparklesStepDelta (1/10) ≤ 1/20 ∧
    pictureFrameStepDelta (1/10) = 1/10 ∧
    (∀ (env : FwEnv) (origin : ℚ × ℚ × ℚ) (s : FwState) (act : Bool),
      fwTick env origin s act (1/10) = fwTick env origin s act (fireworksStepDelta (1/10))) ∧
    (∀ (env : HostEnv) (s : SparkleState) (act : Bool),
      sparkleTick env s act (1/10) = sparkleTick env s act (sparklesStepDelta (1/10))) :=
  c7_frame_delta_clamping (1/10)

/-! ### C8: the burst-velocity direction formula, over `ℝ`

The velocity components written by `burstShell` (`src/unnamed/part_000`
lines 121-131) in exact real arithmetic, as a function of the two random
angle draws `theta = random * 2π`, `phi = acos(random * 2 - 1)` and the drawn
`speed`. -/

noncomputable def burstVelocity (theta phi speed : ℝ) : ℝ × ℝ × ℝ :=
  (Real.sin phi * Real.cos theta * speed,
   Real.sin phi * Real.sin theta * speed * (6/10) + Real.cos phi * speed * (5/10),
   Real.sin phi * Real.sin (theta + Real.pi / 2) * speed)

/-- The uniformly sphere-distributed direction the claim describes, scaled by
the speed: `speed • (sin φ cos θ, sin φ sin θ, cos φ)`.  Written from the
claim's words, for comparison with `burstVelocity`. -/
noncomputable def claimSphereVelocity (theta phi speed : ℝ) : ℝ × ℝ × ℝ :=
  (Real.sin phi * Real.cos theta * speed,
   Real.sin phi * Real.sin theta * speed,
   Real.cos phi * speed)

/-- Counterexample to C8 as stated: at `theta = phi = π/2`, `speed = 1`, the
code's velocity is `(0, 0.6, 0)` while the claimed spherical direction is
`(0, 1, 0)`. -/
theorem c8_burst_velocity_counterexample :
    burstVelocity (Real.pi/2) (Real.pi/2) 1 ≠ claimSphereVelocity (Real.pi/2) (Real.pi/2) 1 := by
  intro h
  have h2 := congrArg (fun v : ℝ × ℝ × ℝ => v.2.1) h
  simp only [burstVelocity, claimSphereVelocity, Real.sin_pi_div_two,
    Real.cos_pi_div_two] at h2
  norm_num at h2

lemma burstSpawnOne_colors (env : FwEnv) (sIdx : ℕ) (shell : ShellState) (p j : ℕ)
    (st : FwState) :
    (burstSpawnOne env sIdx shell p st).colors j =
      if j = sIdx * PARTICLES_PER_SHELL + p then
        (PALETTES.getD shell.paletteIdx []).getD
          (⌊env.rand (burstBase sIdx p + 3) *
            ((PALETTES.getD shell.paletteIdx []).length : ℚ)⌋).toNat (0, 0, 0)
      else st.colors j := by
  simp [burstSpawnOne, Function.update_apply]

lemma burstShell_fold_colors_value (env : FwEnv) (sIdx : ℕ) (shell : ShellState) :
    ∀ (n : ℕ) (st : FwState) (p : ℕ), p < n →
      (((List.range n).foldl (fun st p => burstSpawnOne env sIdx shell p st) st)).colors
        (sIdx * PARTICLES_PER_SHELL + p) =
      (PALETTES.getD shell.paletteIdx []).getD
        (⌊env.rand (burstBase sIdx p + 3) *
          ((PALETTES.getD shell.paletteIdx []).length : ℚ)⌋).toNat (0, 0, 0) := by
  intro n
  induction n with
  | zero => intro st p hp; omega
  | succ n ih =>
    intro st p hp
    rw [List.range_succ, List.foldl_append, List.foldl_cons, List.foldl_nil]
    rw [burstSpawnOne_colors]
    by_cases hpn : p = n
    · rw [if_pos (by rw [hpn]), hpn]
    · rw [if_neg (by omega)]
      exact ih st p (by omega)

lemma burstShell_fold_lifetimes_value (env : FwEnv) (sIdx : ℕ) (shell : ShellState) :
    ∀ (n : ℕ) (st : FwState) (p : ℕ), p < n →
      (((List.range n).foldl (fun st p => burstSpawnOne env sIdx shell p st) st)).lifetimes
        (sIdx * PARTICLES_PER_SHELL + p) =
      BURST_LIFETIME_MIN + env.rand (burstBase sIdx p + 5) *
        (BURST_LIFETIME_MAX - BURST_LIFETIME_MIN) := by
  intro n
  induction n with
  | zero => intro st p hp; omega
  | succ n ih =>
    intro st p hp
    rw [List.range_succ, List.foldl_append, List.foldl_cons, List.foldl_nil]
    rw [burstSpawnOne_lifetimes]
    by_cases hpn : p = n
    · rw [if_pos (by rw [hpn]), hpn]
    · rw [if_neg (by omega)]
      exact ih st p (by omega)

/-- C8 as corrected: the burst velocity is the anisotropically mixed vector
`(sin φ cos θ · s, 0.6 sin φ sin θ · s + 0.5 cos φ · s, sin φ cos θ · s)` —
whose X and Z components coincide (`sin (θ + π/2) = cos θ`), not the uniform
spherical direction — while the rest of the claim stands: each spawned
particle's colour is drawn from the shell's palette, its lifetime is
randomized in `[1, 2.2)`, and its age is reset to `0`. -/
theorem c8_burst_velocity_formula_and_palette :
    (∀ theta phi speed : ℝ,
      burstVelocity theta phi speed =
        (Real.sin phi * Real.cos theta * speed,
         Real.sin phi * Real.sin theta * speed * (6/10) + Real.cos phi * speed * (5/10),
         Real.sin phi * Real.cos theta * speed) ∧
      (burstVelocity theta phi speed).2.2 = (burstVelocity theta phi speed).1) ∧
    (∀ (env : FwEnv) (sIdx p : ℕ) (shell : ShellState) (st : FwState),
      p < PARTICLES_PER_SHELL →
      (∀ k, 0 ≤ env.rand k ∧ env.rand k < 1) →
      shell.paletteIdx < PALETTES.length →
      (burstShell env sIdx shell st).colors (sIdx * PARTICLES_PER_SHELL + p) ∈
        PALETTES.getD shell.paletteIdx [] ∧
      1 ≤ (burstShell env sIdx shell st).lifetimes (sIdx * PARTICLES_PER_SHELL + p) ∧
      (burstShell env sIdx shell st).lifetimes (sIdx * PARTICLES_PER_SHELL + p) < 22/10 ∧
      (burstShell env sIdx shell st).ages (sIdx * PARTICLES_PER_SHELL + p) = 0) := by
  constructor
  · intro theta phi speed
    constructor
    · simp only [burstVelocity, Real.sin_add_pi_div_two]
    · simp only [burstVelocity, Real.sin_add_pi_div_two]
  · intro env sIdx p shell st hp hr hpal
    have hlen : (PALETTES.getD shell.paletteIdx []).length = 3 := by
      have h7 : shell.paletteIdx < 7 := by simpa [PALETTES] using hpal
      set k := shell.paletteIdx with hk
      interval_cases k <;> rfl
    have hrand := hr (burstBase sIdx p + 3)
    have hr5 := hr (burstBase sIdx p + 5)
    refine ⟨?_, ?_, ?_, burstShell_ages_zero env sIdx shell st p hp⟩
    · unfold burstShell
      rw [burstShell_fold_colors_value env sIdx shell PARTICLES_PER_SHELL st p hp]
      have hmul0 : 0 ≤ env.rand (burstBase sIdx p + 3) *
          ((PALETTES.getD shell.paletteIdx []).length : ℚ) :=
        mul_nonneg hrand.1 (by positivity)
      have hmul3 : env.rand (burstBase sIdx p + 3) *
          ((PALETTES.getD shell.paletteIdx []).length : ℚ) <
          ((PALETTES.getD shell.paletteIdx []).length : ℚ) := by
        rw [hlen]
        push_cast
        nlinarith [hrand.1, hrand.2]
      have hfl0 : (0:ℤ) ≤ ⌊env.rand (burstBase sIdx p + 3) *
          ((PALETTES.getD shell.paletteIdx []).length : ℚ)⌋ := Int.floor_nonneg.mpr hmul0
      have hfl3 : ⌊env.rand (burstBase sIdx p + 3) *
          ((PALETTES.getD shell.paletteIdx []).length : ℚ)⌋ <
          ((PALETTES.getD shell.paletteIdx []).length : ℤ) :=
        Int.floor_lt.mpr (by exact_mod_cast hmul3)
      have hidx : (⌊env.rand (burstBase sIdx p + 3) *
          ((PALETTES.getD shell.paletteIdx []).length : ℚ)⌋).toNat <
          (PALETTES.getD shell.paletteIdx []).length := by omega
      rw [List.getD_eq_getElem _ _ hidx]
      exact List.getElem_mem _
    · unfold burstShell
      rw [burstShell_fold_lifetimes_value env sIdx shell PARTICLES_PER_SHELL st p hp]
      simp only [BURST_LIFETIME_MIN, BURST_LIFETIME_MAX]
      nlinarith [hr5.1, hr5.2]
    · unfold burstShell
      rw [burstShell_fold_lifetimes_value env sIdx shell PARTICLES_PER_SHELL st p hp]
      simp only [BURST_LIFETIME_MIN, BURST_LIFETIME_MAX]
      nlinarith [hr5.1, hr5.2]

/-- Witness for the corrected C8: the velocity identity at
`theta = phi = π/2`, `speed = 1`, and the palette/lifetime/age facts for the
first particle of shell 0 under the zero oracle. -/
theorem c8_burst_velocity_formula_and_palette_witness :
    (burstVelocity (Real.pi/2) (Real.pi/2) 1 =
      (Real.sin (Real.pi/2) * Real.cos (Real.pi/2) * 1,
       Real.sin (Real.pi/2) * Real.sin (Real.pi/2) * 1 * (6/10) +
         Real.cos (Real.pi/2) * 1 * (5/10),
       Real.sin (Real.pi/2) * Real.cos (Real.pi/2) * 1)) ∧
    ((0:ℕ) < PARTICLES_PER_SHELL ∧ (∀ k, 0 ≤ fwEnvZero.rand k ∧ fwEnvZero.rand k < 1) ∧
      (c4Shell .burst).paletteIdx < PALETTES.length) ∧
    ((burstShell fwEnvZero 0 (c4Shell .burst) fwInit).colors (0 * PARTICLES_PER_SHELL + 0) ∈
      PALETTES.getD (c4Shell .burst).paletteIdx [] ∧
     1 ≤ (burstShell fwEnvZero 0 (c4Shell .burst) fwInit).lifetimes
        (0 * PARTICLES_PER_SHELL + 0) ∧
     (burstShell fwEnvZero 0 (c4Shell .burst) fwInit).lifetimes
        (0 * PARTICLES_PER_SHELL + 0) < 22/10 ∧
     (burstShell fwEnvZero 0 (c4Shell .burst) fwInit).ages (0 * PARTICLES_PER_SHELL + 0) = 0) := by
  have hp : (0:ℕ) < PARTICLES_PER_SHELL := by norm_num [PARTICLES_PER_SHELL]
  have hr : ∀ k, 0 ≤ fwEnvZero.rand k ∧ fwEnvZero.rand k < 1 :=
    fun k => ⟨by norm_num [fwEnvZero], by norm_num [fwEnvZero]⟩
  have hpal : (c4Shell .burst).paletteIdx < PALETTES.length := by
    norm_num [c4Shell, PALETTES]
  exact ⟨(c8_burst_velocity_formula_and_palette.1 (Real.pi/2) (Real.pi/2) 1).1,
    ⟨hp, hr, hpal⟩,
    c8_burst_velocity_formula_and_palette.2 fwEnvZero 0 0 (c4Shell .burst) fwInit hp hr hpal⟩

end Twinnn
